import Mathlib

set_option autoImplicit false

/-!
# Verification of the catastrofy-2 calculation engines

Shallow embedding of the two pure calculation engines of the repository:

* the revolving-balance engine (`calculator.ts`, two variants: the
  minimum-payment variant with a payment floor, namespace `Calc`, and the
  target-months variant without a floor, namespace `CalcT`), and
* the amortizing mortgage engine (`mortgageMath.ts`, top level).

JavaScript numbers are modelled as rationals (`ℚ`); `Math.round x` is
`⌊x + 1/2⌋` (ties toward +∞, as in JS), `Math.floor`/`Math.ceil` are `⌊·⌋`/`⌈·⌉`.
String-typed enumeration fields that the source matches with `switch`/`===`
(`interestMethod`, `minPaymentFormula`) are modelled as `String` so that
unrecognized identifiers are expressible.  Functions that `throw` are modelled
with `Except`.
-/

/-! ## Revolving engine, shared pieces (calculator.ts) -/

namespace Calc

/-- Error raised by the engine: `throw new Error("Unknown interest method: " + method)`.
The spec calls this class of failure `InvalidConfiguration`. -/
inductive CalcError where
  | unknownInterestMethod (method : String)
  deriving DecidableEq, Repr

/-- `CalculationInput` of the web app variant (`apps/web/src/lib/types.ts`):
has a mandatory `minPaymentFloor` and no `targetMonths`. -/
structure CalculationInput where
  principal : ℚ
  apr : ℚ
  dailyRate : Option ℚ := none
  cycleDays : ℕ
  minPaymentPercent : ℚ
  minPaymentFloor : ℚ
  feesPerCycle : Option ℚ := none
  newChargesPerCycle : Option ℚ := none
  interestMethod : String
  minPaymentFormula : String
  locale : Option String := none
  currency : Option String := none
  startDate : Option String := none
  deriving DecidableEq, Repr

/-- One row of the revolving schedule (`PaymentScheduleItem`). -/
structure PaymentScheduleItem where
  monthIndex : ℕ
  startingBalance : ℚ
  interestAccrued : ℚ
  fees : ℚ
  payment : ℚ
  principalPaid : ℚ
  endingBalance : ℚ
  onlyInterestCovered : Bool
  deriving DecidableEq, Repr

/-- `roundToCents`: `Math.round(amount * 100) / 100`. -/
def roundToCents (amount : ℚ) : ℚ :=
  (⌊amount * 100 + 1/2⌋ : ℤ) / 100

/-- `getDailyRate(apr, cycleDays?)`. -/
def getDailyRate (apr : ℚ) (cycleDays : Option ℕ := none) : ℚ :=
  match cycleDays with
  | some d => if d ≠ 0 ∧ d ≠ 365 then apr / d else apr / 365
  | none => apr / 365

/-- `computeCycleInterest(balance, apr, method, cycleDays)`: a `switch` over the
method string; the `default` branch throws.  (The target-months variant of
`calculator.ts` contains a textually identical copy of this function.) -/
def computeCycleInterest (balance apr : ℚ) (method : String) (cycleDays : ℕ) :
    Except CalcError ℚ :=
  if method = "averageDailyBalance" then
    .ok ((apr / 12) * balance)
  else if method = "simpleMonthlyAPR" then
    .ok (balance * (apr / 12))
  else if method = "dailyCompounding" then
    .ok (balance * ((1 + apr / 365) ^ cycleDays - 1))
  else
    .error (.unknownInterestMethod method)

/-- `computeMinimumPayment(input, statementBalance, interest, fees)` of the
floor variant: `percentOnly` gives `max(floor, pct*balance)`, anything else
falls into the `else` branch `max(floor, pct*balance) + interest + fees`;
the result is clamped to `≥ 0` and rounded to cents. -/
def computeMinimumPayment (input : CalculationInput)
    (statementBalance interest fees : ℚ) : ℚ :=
  let payment :=
    if input.minPaymentFormula = "percentOnly" then
      max input.minPaymentFloor (input.minPaymentPercent * statementBalance)
    else
      max input.minPaymentFloor (input.minPaymentPercent * statementBalance)
        + interest + fees
  max 0 (roundToCents payment)

/-- Safety cap of the schedule loop. -/
def MAX_CYCLES : ℕ := 600

/-- Minimum balance considered "paid off". -/
def EPSILON : ℚ := 1/100

/-- One iteration body of `computeSchedule`'s `while` loop, followed by the
rest of the loop; `fuel` counts the remaining iterations allowed by the
`monthIndex < MAX_CYCLES` guard.  The `while` condition
`currentBalance > EPSILON && monthIndex < MAX_CYCLES` is checked on entry;
the runaway guard `endingBalance > startingBalance && monthIndex > 12`
(checked after `monthIndex++`) breaks out of the loop. -/
def scheduleLoop (input : CalculationInput) :
    ℕ → ℕ → ℚ → Except CalcError (List PaymentScheduleItem)
  | 0, _, _ => .ok []
  | fuel + 1, monthIndex, currentBalance =>
    if currentBalance > EPSILON then
      let startingBalance := currentBalance
      let balanceWithCharges := startingBalance + input.newChargesPerCycle.getD 0
      match computeCycleInterest balanceWithCharges input.apr
          input.interestMethod input.cycleDays with
      | .error e => .error e
      | .ok interestAccrued =>
        let fees := input.feesPerCycle.getD 0
        let payment := computeMinimumPayment input balanceWithCharges interestAccrued fees
        let principalPaid := payment - interestAccrued - fees
        let endingBalance := roundToCents (balanceWithCharges + interestAccrued + fees - payment)
        let onlyInterestCovered : Bool := principalPaid ≤ 0
        let item : PaymentScheduleItem :=
          { monthIndex := monthIndex
            startingBalance := roundToCents startingBalance
            interestAccrued := roundToCents interestAccrued
            fees := roundToCents fees
            payment := roundToCents payment
            principalPaid := roundToCents principalPaid
            endingBalance := roundToCents endingBalance
            onlyInterestCovered := onlyInterestCovered }
        if endingBalance > startingBalance ∧ monthIndex + 1 > 12 then
          .ok [item]
        else
          match scheduleLoop input fuel (monthIndex + 1) endingBalance with
          | .error e => .error e
          | .ok rest => .ok (item :: rest)
    else .ok []

/-- `computeSchedule(input)` of the floor variant. -/
def computeSchedule (input : CalculationInput) :
    Except CalcError (List PaymentScheduleItem) :=
  scheduleLoop input MAX_CYCLES 0 input.principal

end Calc

/-! ## Revolving engine, target-months variant (second `calculator.ts`) -/

namespace CalcT

/-- `CalculationInput` of the target-months variant (`src/lib/types.ts`):
no `minPaymentFloor`, optional `targetMonths`. -/
structure CalculationInput where
  principal : ℚ
  apr : ℚ
  dailyRate : Option ℚ := none
  cycleDays : ℕ
  minPaymentPercent : ℚ
  feesPerCycle : Option ℚ := none
  newChargesPerCycle : Option ℚ := none
  interestMethod : String
  minPaymentFormula : String
  targetMonths : Option ℕ := none
  locale : Option String := none
  currency : Option String := none
  startDate : Option String := none
  deriving DecidableEq, Repr

/-- `computeMinimumPayment` of the target-months variant: no floor; any
formula other than `percentOnly` falls into the percent-plus-interest-and-fees
branch; clamped to `≥ 0` and rounded to cents. -/
def computeMinimumPayment (input : CalculationInput)
    (statementBalance interest fees : ℚ) : ℚ :=
  let payment :=
    if input.minPaymentFormula = "percentOnly" then
      input.minPaymentPercent * statementBalance
    else
      input.minPaymentPercent * statementBalance + interest + fees
  max 0 (Calc.roundToCents payment)

/-- `calculateRequiredPayment(remainingBalance, apr, remainingMonths)`. -/
def calculateRequiredPayment (remainingBalance apr : ℚ) (remainingMonths : ℕ) : ℚ :=
  if remainingMonths = 0 then remainingBalance
  else
    let monthlyInterestRate := apr / 12
    let estimatedInterest := remainingBalance * monthlyInterestRate * remainingMonths / 2
    Calc.roundToCents ((remainingBalance + estimatedInterest) / remainingMonths)

end CalcT

/-! ## Mortgage engine (mortgageMath.ts) -/

/-- Rounding mode of `round2`: `'round' | 'floor' | 'ceil'`. -/
inductive RoundingMode where
  | round | floor | ceil
  deriving DecidableEq, Repr

/-- `round2(v, mode)`: round to 2 decimals; `Math.round` rounds half toward +∞. -/
def round2 (v : ℚ) (mode : RoundingMode := .round) : ℚ :=
  match mode with
  | .floor => (⌊v * 100⌋ : ℤ) / 100
  | .ceil => (⌈v * 100⌉ : ℤ) / 100
  | .round => (⌊v * 100 + 1/2⌋ : ℤ) / 100

/-- `ProductType` (types/mortgage.ts). Only `hipoteca_creciente` has distinct
simulation logic. -/
inductive ProductType where
  | hipoteca_fija | hipoteca_creciente | muda | remodela
  | tu_opcion_mexico | terreno | liquidez
  deriving DecidableEq, Repr

/-- `InterestBand`: `{ fromMonth, toMonth?, annualRate }`. -/
structure InterestBand where
  fromMonth : ℕ
  toMonth : Option ℕ := none
  annualRate : ℚ
  deriving DecidableEq, Repr

/-- `InsuranceSettings`. -/
structure InsuranceSettings where
  lifeAnnualRateOnBalance : ℚ
  hazardAnnualRateOnInsuredValue : ℚ
  insuredValueFactor : ℚ
  reindexInsuredValueAnnualPct : ℚ
  deriving DecidableEq, Repr

/-- `CostSettings`. -/
structure CostSettings where
  openingCommissionPct : ℚ
  adminDeferredMonthlyPct : ℚ
  appraisalCost : ℚ
  notaryCost : ℚ
  preoriginationCost : ℚ
  deriving DecidableEq, Repr

/-- `Prepayment`: `{ month, amount }`. -/
structure Prepayment where
  month : ℕ
  amount : ℚ
  deriving DecidableEq, Repr

/-- `PrepaymentMode`. -/
inductive PrepaymentMode where
  | reduce_term | reduce_installment
  deriving DecidableEq, Repr

/-- `GrowthSettings`. -/
structure GrowthSettings where
  annualIncreasePct : ℚ
  increaseEndYear : ℕ
  initialPagoPorMil : Option ℚ := none
  deriving DecidableEq, Repr

/-- `interest: { bands: InterestBand[] }` field of `MortgageInput`. -/
structure InterestConfig where
  bands : List InterestBand
  deriving DecidableEq, Repr

/-- Raw `MortgageInput` (optional fields still optional). -/
structure MortgageInput where
  product : ProductType
  propertyValue : ℚ
  ltv : ℚ
  principal : Option ℚ := none
  termMonths : ℕ
  interest : InterestConfig
  growth : Option GrowthSettings := none
  costs : CostSettings
  insurance : InsuranceSettings
  prepayments : List Prepayment
  prepaymentMode : PrepaymentMode
  startDate : Option String := none
  roundingMode : Option RoundingMode := none
  deriving DecidableEq, Repr

/-- `Required<MortgageInput>` after the defaulting block at the top of
`computeMortgage` (all optional fields filled in). -/
structure ResolvedMortgageInput where
  roundingMode : RoundingMode
  startDate : String
  prepaymentMode : PrepaymentMode
  prepayments : List Prepayment
  insurance : InsuranceSettings
  costs : CostSettings
  interest : InterestConfig
  growth : GrowthSettings
  ltv : ℚ
  product : ProductType
  propertyValue : ℚ
  termMonths : ℕ
  principal : ℚ
  deriving DecidableEq, Repr

/-- `AmortizationRow` (the engine never sets the optional `date` field). -/
structure AmortizationRow where
  month : ℕ
  openingBalance : ℚ
  interest : ℚ
  principal : ℚ
  basePayment : ℚ
  insurance : ℚ
  adminCommission : ℚ
  totalPayment : ℚ
  prepayment : ℚ
  closingBalance : ℚ
  deriving DecidableEq, Repr

/-- `AmortizationTotals`. -/
structure AmortizationTotals where
  interestTotal : ℚ
  principalTotal : ℚ
  baseTotal : ℚ
  insuranceTotal : ℚ
  adminCommissionTotal : ℚ
  grandTotal : ℚ
  pagoPorMil : ℚ
  initialDisbursementRequired : ℚ
  openingCommission : ℚ
  downPayment : ℚ
  deriving DecidableEq, Repr

/-- `MortgageResult`. -/
structure MortgageResult where
  input : ResolvedMortgageInput
  rows : List AmortizationRow
  totals : AmortizationTotals
  deriving DecidableEq, Repr

/-- Error thrown by `computeMortgage`:
`Base payment too small at month ${m}. Increase initial pago por mil or growth/base settings.`
The spec calls this `InsufficientPayment`; the month number is the payload. -/
inductive MortgageError where
  | insufficientPayment (month : ℕ)
  deriving DecidableEq, Repr

/-- `getMonthlyRateForMonth(bands, m)`: first band whose `[fromMonth, toMonth]`
contains `m` (`toMonth` absent = open-ended), else `bands[bands.length - 1]`.
On an empty list the JS code reads `bands[-1].annualRate` (`undefined`,
yielding `NaN`); that partiality is modelled by returning `none`. -/
def getMonthlyRateForMonth (bands : List InterestBand) (m : ℕ) : Option ℚ :=
  let b := bands.find? fun x =>
    decide (m ≥ x.fromMonth) && (x.toMonth.isNone || decide (m ≤ x.toMonth.getD 0))
  match b with
  | some x => some (x.annualRate / 12)
  | none => (bands.getLast?).map fun x => x.annualRate / 12

/-- Total wrapper used inside the engine; defaults the (JS: `NaN`) empty-bands
case to `0`.  Every theorem about full engine runs either assumes a non-empty
band list or is insensitive to this default (see the C9 theorem). -/
def rateD (bands : List InterestBand) (m : ℕ) : ℚ :=
  (getMonthlyRateForMonth bands m).getD 0

/-- `annuity(pv, r, n)`: standard level payment; `r = 0` degrades to `pv / n`. -/
def annuity (pv r : ℚ) (n : ℕ) : ℚ :=
  if r = 0 then pv / n else pv * r / (1 - (1 + r) ^ (-(n : ℤ)))

/-- `buildFixedBasePayment`: annuity at month-1 rate over the full term. -/
def buildFixedBasePayment (input : ResolvedMortgageInput) : ℚ :=
  annuity input.principal (rateD input.interest.bands 1) input.termMonths

/-- `monthsOfGrowth` from `makeIncreasingBasePayment`:
`min(termMonths, increaseEndYear * 12)`. -/
def monthsOfGrowth (input : ResolvedMortgageInput) : ℕ :=
  min input.termMonths (input.growth.increaseEndYear * 12)

/-- `initialBase` from `makeIncreasingBasePayment`: seeded from
`initialPagoPorMil` when that is present and truthy (non-zero), else 90% of
the fixed annuity. -/
def initialBase (input : ResolvedMortgageInput) : ℚ :=
  match input.growth.initialPagoPorMil with
  | some ppm =>
    if ppm = 0 then buildFixedBasePayment input * (9/10)
    else (input.principal / 1000) * ppm
  | none => buildFixedBasePayment input * (9/10)

/-- `baseForMonthBeforeFix(m)` from `makeIncreasingBasePayment`. -/
def baseForMonthBeforeFix (input : ResolvedMortgageInput) (m : ℕ) : ℚ :=
  let yearIndex := (m - 1) / 12
  let factor :=
    if m ≤ monthsOfGrowth input then (1 + input.growth.annualIncreasePct) ^ yearIndex
    else 1
  initialBase input * factor

/-- The mutable state captured by `basePaymentFn` during the loop.
`fixedB b` is the fixed-product closure `() => b` (replaced by `() => newBase`
after a reduce-installment prepayment).  `crec fag cfag` is the growing-product
closure: `fag` is the captured `fixedBaseAfterGrowth` variable (`none` = JS
`null`), and `cfag = some nb` means `__computeFixedAfterGrowth` has been
replaced by the constant closure `() => nb` (which, unlike the original, does
*not* assign `fixedBaseAfterGrowth`). -/
inductive BasePaymentState where
  | fixedB (base : ℚ)
  | crec (fixedAfterGrowth : Option ℚ) (cfag : Option ℚ)
  deriving DecidableEq, Repr

/-- `basePaymentFn(m, balance)` — step 1 of the loop body. -/
def basePaymentValue (input : ResolvedMortgageInput) (st : BasePaymentState) (m : ℕ) : ℚ :=
  match st with
  | .fixedB b => b
  | .crec fag _ =>
    if m ≤ monthsOfGrowth input then baseForMonthBeforeFix input m
    else fag.getD 0

/-- Steps 1–2 of the loop body: resolve the base payment, including the lazy
`__computeFixedAfterGrowth` call at month `increaseEndYear * 12 + 1` for the
growing product (which assigns `fixedBaseAfterGrowth` only when the original
closure is still installed).  `computeMortgage` installs a `crec` state exactly
for `hipoteca_creciente`, so the source's `product === 'hipoteca_creciente'`
test is the state's constructor here. -/
def mortBase (input : ResolvedMortgageInput) (st : BasePaymentState) (m : ℕ) (bal : ℚ) :
    ℚ × BasePaymentState :=
  let base := basePaymentValue input st m
  match st with
  | .fixedB _ => (base, st)
  | .crec fag cfag =>
    if m = input.growth.increaseEndYear * 12 + 1 then
      match cfag with
      | none =>
        let monthsLeft := input.termMonths - (m - 1)
        let r := rateD input.interest.bands m
        let mFixed := annuity bal r monthsLeft
        (mFixed, .crec (some mFixed) none)
      | some nb => (nb, .crec fag cfag)
    else (base, st)

/-- `monthlyAdminCommission = round2(P0 * adminDeferredMonthlyPct, rounding)`. -/
def monthlyAdminCommission (input : ResolvedMortgageInput) : ℚ :=
  round2 (input.principal * input.costs.adminDeferredMonthlyPct) input.roundingMode

/-- The `prepayByMonth` map: built by iterating `prepayments` and summing into
the existing entry (`map.set(p.month, (map.get(p.month) ?? 0) + p.amount)`);
reading a missing month gives `?? 0`. -/
def prepayByMonth (prepayments : List Prepayment) : ℕ → ℚ :=
  prepayments.foldl (fun f p => Function.update f p.month (f p.month + p.amount))
    (fun _ => 0)

/-- Output of one iteration of the `computeMortgage` loop body. -/
structure MortStepOut where
  row : AmortizationRow
  st : BasePaymentState
  closing : ℚ
  deriving Repr

/-- One iteration of the `computeMortgage` loop body (source lines of the
`for` loop): base resolution, interest, negative-principal guard, final
installment clamp, insurance, rounding, prepayment clamp, closing balance,
reduce-installment recompute, total payment, row.  `pa` is the `prepayByMonth`
map. -/
def mortStep (input : ResolvedMortgageInput) (pa : ℕ → ℚ) (m : ℕ) (bal : ℚ)
    (st : BasePaymentState) : Except MortgageError MortStepOut :=
  let n := input.termMonths
  let rounding := input.roundingMode
  let (base₀, st₁) := mortBase input st m bal
  let r := rateD input.interest.bands m
  let interest₀ := bal * r
  let principal₀ := base₀ - interest₀
  if principal₀ < 0 then .error (.insufficientPayment m)
  else
    let (principal₁, base₁) :=
      if principal₀ > bal then (bal, interest₀ + bal) else (principal₀, base₀)
    let yearIndex := (m - 1) / 12
    let insuredValue := input.propertyValue * input.insurance.insuredValueFactor *
      (1 + input.insurance.reindexInsuredValueAnnualPct) ^ yearIndex
    let life := bal * input.insurance.lifeAnnualRateOnBalance / 12
    let hazard := insuredValue * input.insurance.hazardAnnualRateOnInsuredValue / 12
    let interest := round2 interest₀ rounding
    let principal := round2 principal₁ rounding
    let base := round2 base₁ rounding
    let insurance := round2 (life + hazard) rounding
    let admin := monthlyAdminCommission input
    let prepayment₀ := round2 (pa m) rounding
    let prepayment :=
      if prepayment₀ > 0 ∧ prepayment₀ > bal - principal then
        round2 (bal - principal) rounding
      else prepayment₀
    let closing := round2 (bal - principal - prepayment) rounding
    let st₂ :=
      if prepayment > 0 ∧ input.prepaymentMode = .reduce_installment ∧ 0 < n - m then
        let newBase := annuity closing (rateD input.interest.bands (m + 1)) (n - m)
        match st₁ with
        | .fixedB _ => .fixedB newBase
        | .crec fag _ => BasePaymentState.crec fag (some newBase)
      else st₁
    let totalPayment := round2 (base + insurance + admin + prepayment) rounding
    .ok
      { row :=
          { month := m
            openingBalance := bal
            interest := interest
            principal := principal
            basePayment := base
            insurance := insurance
            adminCommission := admin
            totalPayment := totalPayment
            prepayment := prepayment
            closingBalance := closing }
        st := st₂
        closing := closing }

/-- The `for (let m = 1; m <= n && balance > 0.005; m++)` loop; `fuel` is
`n - m + 1`, the number of months the `m ≤ n` bound still allows. -/
def mortgageLoop (input : ResolvedMortgageInput) (pa : ℕ → ℚ) :
    ℕ → BasePaymentState → ℕ → ℚ → Except MortgageError (List AmortizationRow)
  | 0, _, _, _ => .ok []
  | fuel + 1, st, m, bal =>
    if bal > 1/200 then
      match mortStep input pa m bal st with
      | .error e => .error e
      | .ok out =>
        match mortgageLoop input pa fuel out.st (m + 1) out.closing with
        | .error e => .error e
        | .ok rest => .ok (out.row :: rest)
    else .ok []

/-- The defaulting block at the top of `computeMortgage`. -/
def resolveMortgageInput (rawInput : MortgageInput) : ResolvedMortgageInput :=
  { roundingMode := rawInput.roundingMode.getD .round
    startDate := rawInput.startDate.getD ""
    prepaymentMode := rawInput.prepaymentMode
    prepayments := rawInput.prepayments
    insurance := rawInput.insurance
    costs := rawInput.costs
    interest := rawInput.interest
    growth := rawInput.growth.getD
      { annualIncreasePct := 0, increaseEndYear := 0, initialPagoPorMil := none }
    ltv := rawInput.ltv
    product := rawInput.product
    propertyValue := rawInput.propertyValue
    termMonths := rawInput.termMonths
    principal := rawInput.principal.getD
      (round2 (rawInput.propertyValue * rawInput.ltv) .round) }

/-- `downPayment = round2(propertyValue - P0, rounding)`. -/
def downPayment (input : ResolvedMortgageInput) : ℚ :=
  round2 (input.propertyValue - input.principal) input.roundingMode

/-- `openingCommission = round2(P0 * openingCommissionPct, rounding)`. -/
def openingCommission (input : ResolvedMortgageInput) : ℚ :=
  round2 (input.principal * input.costs.openingCommissionPct) input.roundingMode

/-- `initialDisbursementRequired`. -/
def initialDisbursementRequired (input : ResolvedMortgageInput) : ℚ :=
  round2 (downPayment input + input.costs.notaryCost + input.costs.appraisalCost +
    input.costs.preoriginationCost + openingCommission input) input.roundingMode

/-- The dead local `adminCommissionTotal` computed after the loop (source:
`round2(pct === 0 ? 0 : pct * principal * rows.length, rounding)` under the
comment "admin commission only for months actually paid").  The returned
totals do **not** use it — they use `round2(adminTotal, rounding)` where
`adminTotal` is the running sum of the per-month (already rounded)
`monthlyAdminCommission`. -/
def adminCommissionTotalByFormula (input : ResolvedMortgageInput) (rowCount : ℕ) : ℚ :=
  round2
    (if input.costs.adminDeferredMonthlyPct = 0 then 0
     else input.costs.adminDeferredMonthlyPct * input.principal * rowCount)
    input.roundingMode

/-- Post-loop aggregation of `computeMortgage`: the running totals are the
left folds of the corresponding row fields (the loop accumulates them in the
same order it pushes the rows). -/
def mkTotals (input : ResolvedMortgageInput) (rows : List AmortizationRow) :
    AmortizationTotals :=
  let rounding := input.roundingMode
  let P0 := input.principal
  let interestTotal := rows.foldl (fun s r => s + r.interest) 0
  let baseTotal := rows.foldl (fun s r => s + r.basePayment) 0
  let insuranceTotal := rows.foldl (fun s r => s + r.insurance) 0
  let adminTotal := rows.foldl (fun s r => s + r.adminCommission) 0
  let pagoPorMil :=
    match rows.head? with
    | some r0 => round2 (r0.basePayment / (P0 / 1000)) .round
    | none => 0
  { interestTotal := round2 interestTotal rounding
    principalTotal := round2 P0 rounding
    baseTotal := round2 baseTotal rounding
    insuranceTotal := round2 insuranceTotal rounding
    adminCommissionTotal := round2 adminTotal rounding
    grandTotal := round2 (baseTotal + insuranceTotal + adminTotal) rounding
    pagoPorMil := pagoPorMil
    initialDisbursementRequired := initialDisbursementRequired input
    openingCommission := openingCommission input
    downPayment := downPayment input }

/-- The initial `basePaymentFn` state: a `crec` state for
`hipoteca_creciente`, else the constant fixed annuity closure. -/
def initialBaseState (input : ResolvedMortgageInput) : BasePaymentState :=
  match input.product with
  | .hipoteca_creciente => .crec none none
  | _ => .fixedB (buildFixedBasePayment input)

/-- `computeMortgage(rawInput)`: resolve defaults, build the prepayment map,
run the monthly loop, aggregate totals.  A thrown error aborts the whole call
(no partial rows). -/
def computeMortgage (rawInput : MortgageInput) : Except MortgageError MortgageResult :=
  let input := resolveMortgageInput rawInput
  let pa := prepayByMonth input.prepayments
  match mortgageLoop input pa input.termMonths (initialBaseState input) 1 input.principal with
  | .error e => .error e
  | .ok rows => .ok { input := input, rows := rows, totals := mkTotals input rows }

/-! ## Spec-side predicates and derived notions used by the theorems -/

/-- A rational that is a whole number of cents.  Every `round2`/`roundToCents`
output is of this shape. -/
def IsCent (x : ℚ) : Prop := ∃ k : ℤ, x = k / 100

/-- Spec-side reading of an interest band: the month range
`[fromMonth, toMonth]` contains `m`; an absent `toMonth` means open-ended. -/
def bandContains (b : InterestBand) (m : ℕ) : Prop :=
  b.fromMonth ≤ m ∧ ∀ t, b.toMonth = some t → m ≤ t

/-- Total prepayment amount scheduled for month `m` in a prepayment list. -/
def prepaySum (l : List Prepayment) (m : ℕ) : ℚ :=
  (l.map fun p => if p.month = m then p.amount else 0).sum

/-! ## Concrete inputs used by counterexamples and witnesses -/

/-- All-zero cost settings. -/
def zeroCosts : CostSettings :=
  { openingCommissionPct := 0, adminDeferredMonthlyPct := 0,
    appraisalCost := 0, notaryCost := 0, preoriginationCost := 0 }

/-- All-zero insurance settings. -/
def zeroInsurance : InsuranceSettings :=
  { lifeAnnualRateOnBalance := 0, hazardAnnualRateOnInsuredValue := 0,
    insuredValueFactor := 0, reindexInsuredValueAnnualPct := 0 }

/-- Revolving input with a payment floor (200) far above the balance (100)
and new charges per cycle: the first cycle's payment exceeds the whole debt. -/
def c1in : Calc.CalculationInput :=
  { principal := 100, apr := 3/5, cycleDays := 30, minPaymentPercent := 1/20,
    minPaymentFloor := 200, newChargesPerCycle := some 50,
    interestMethod := "simpleMonthlyAPR", minPaymentFormula := "percentOnly" }

/-- The single row `computeSchedule c1in` produces (interest on the charged
balance 150 at 60%/12 is 7.5; the floored payment 200 overshoots). -/
def c1row : Calc.PaymentScheduleItem :=
  { monthIndex := 0, startingBalance := 100, interestAccrued := 15/2, fees := 0,
    payment := 200, principalPaid := 385/2, endingBalance := -85/2,
    onlyInterestCovered := false }

/-- Growing-product mortgage whose `initialPagoPorMil = 1` yields a month-1
base payment of 100 against month-1 interest 1000 (12% on 100000). -/
def c2in : MortgageInput :=
  { product := .hipoteca_creciente, propertyValue := 100000, ltv := 1,
    principal := some 100000, termMonths := 240,
    interest := ⟨[{ fromMonth := 1, annualRate := 12/100 }]⟩,
    growth := some { annualIncreasePct := 2/100, increaseEndYear := 5,
                     initialPagoPorMil := some 1 },
    costs := zeroCosts, insurance := zeroInsurance,
    prepayments := [], prepaymentMode := .reduce_term }

/-- Two-month zero-rate mortgage with `adminDeferredMonthlyPct = 0.0000155`:
the per-month commission `round2(1000 * 0.0000155) = 0.02` accumulates to
`0.04`, while `round2(0.0000155 * 1000 * 2) = 0.03`. -/
def c3in : MortgageInput :=
  { product := .hipoteca_fija, propertyValue := 1000, ltv := 1, principal := some 1000,
    termMonths := 2, interest := ⟨[{ fromMonth := 1, annualRate := 0 }]⟩,
    costs := { openingCommissionPct := 0, adminDeferredMonthlyPct := 155/10000000,
               appraisalCost := 0, notaryCost := 0, preoriginationCost := 0 },
    insurance := zeroInsurance,
    prepayments := [], prepaymentMode := .reduce_term }

/-- Revolving input with a recognized interest method but an unrecognized
minimum-payment formula identifier. -/
def c4in : Calc.CalculationInput :=
  { principal := 1/50, apr := 0, cycleDays := 30, minPaymentPercent := 1/2,
    minPaymentFloor := 0, interestMethod := "simpleMonthlyAPR",
    minPaymentFormula := "percentPlusInterestAndFeess" }

/-- The single row `computeSchedule c4in` produces. -/
def c4row : Calc.PaymentScheduleItem :=
  { monthIndex := 0, startingBalance := 1/50, interestAccrued := 0, fees := 0,
    payment := 1/100, principalPaid := 1/100, endingBalance := 1/100,
    onlyInterestCovered := false }

/-- Revolving input with an unrecognized interest method but a principal below
the loop's epsilon, so the loop body (and hence the method check) never runs. -/
def c4meth : Calc.CalculationInput :=
  { principal := 0, apr := 3/5, cycleDays := 30, minPaymentPercent := 1/20,
    minPaymentFloor := 0, interestMethod := "bogusMethod",
    minPaymentFormula := "percentOnly" }

/-- Scenario D: fixed product, principal 4,770,000, single band at 10.1%
annual (month-1 monthly rate 0.101/12), term 240. -/
def c6in : MortgageInput :=
  { product := .hipoteca_fija, propertyValue := 4770000, ltv := 1,
    principal := some 4770000, termMonths := 240,
    interest := ⟨[{ fromMonth := 1, annualRate := 101/1000 }]⟩,
    costs := zeroCosts, insurance := zeroInsurance,
    prepayments := [], prepaymentMode := .reduce_term }

/-- Growing-product mortgage (zero rate, 16-month term, growth ends after
year 1) used to refute the reduce-term monotonicity claim: without
prepayments, the recomputed post-growth payment `annuity(0.02, 0, 4) = 0.005`
rounds up to `0.01` and the loan finishes in 14 rows; after a one-cent
prepayment the recomputed payment `annuity(0.01, 0, 4) = 0.0025` rounds to
`0`, so the loan drags on to the full 16 rows. -/
def c8in : MortgageInput :=
  { product := .hipoteca_creciente, propertyValue := 7/50, ltv := 1,
    principal := some (7/50), termMonths := 16,
    interest := ⟨[{ fromMonth := 1, annualRate := 0 }]⟩,
    growth := some { annualIncreasePct := 0, increaseEndYear := 1,
                     initialPagoPorMil := some (500/7) },
    costs := zeroCosts, insurance := zeroInsurance,
    prepayments := [], prepaymentMode := .reduce_term }

/-- `c8in` plus one positive prepayment of one cent at month 1. -/
def c8inP : MortgageInput := { c8in with prepayments := [⟨1, 1/100⟩] }

/-- One-month fixed mortgage at zero rate (used by witnesses). -/
def w1in : MortgageInput :=
  { product := .hipoteca_fija, propertyValue := 100, ltv := 1, principal := some 100,
    termMonths := 1, interest := ⟨[{ fromMonth := 1, annualRate := 0 }]⟩,
    costs := zeroCosts, insurance := zeroInsurance,
    prepayments := [], prepaymentMode := .reduce_term }

/-- The single row of `computeMortgage w1in`. -/
def w1row : AmortizationRow :=
  { month := 1, openingBalance := 100, interest := 0, principal := 100,
    basePayment := 100, insurance := 0, adminCommission := 0,
    totalPayment := 100, prepayment := 0, closingBalance := 0 }

/-- The result of `computeMortgage w1in`. -/
def w1res : MortgageResult :=
  { input :=
      { roundingMode := .round, startDate := "", prepaymentMode := .reduce_term,
        prepayments := [], insurance := zeroInsurance, costs := zeroCosts,
        interest := ⟨[{ fromMonth := 1, annualRate := 0 }]⟩,
        growth := { annualIncreasePct := 0, increaseEndYear := 0, initialPagoPorMil := none },
        ltv := 1, product := .hipoteca_fija, propertyValue := 100,
        termMonths := 1, principal := 100 }
    rows := [w1row]
    totals := { interestTotal := 0, principalTotal := 100, baseTotal := 100,
                insuranceTotal := 0, adminCommissionTotal := 0, grandTotal := 100,
                pagoPorMil := 1000, initialDisbursementRequired := 0,
                openingCommission := 0, downPayment := 0 } }

/-- Two-month fixed mortgage at zero rate (witness base run for C8). -/
def w8in : MortgageInput :=
  { product := .hipoteca_fija, propertyValue := 100, ltv := 1, principal := some 100,
    termMonths := 2, interest := ⟨[{ fromMonth := 1, annualRate := 0 }]⟩,
    costs := zeroCosts, insurance := zeroInsurance,
    prepayments := [], prepaymentMode := .reduce_term }

/-- The result of `computeMortgage w8in` (two 50-unit installments). -/
def w8res : MortgageResult :=
  { input :=
      { roundingMode := .round, startDate := "", prepaymentMode := .reduce_term,
        prepayments := [], insurance := zeroInsurance, costs := zeroCosts,
        interest := ⟨[{ fromMonth := 1, annualRate := 0 }]⟩,
        growth := { annualIncreasePct := 0, increaseEndYear := 0, initialPagoPorMil := none },
        ltv := 1, product := .hipoteca_fija, propertyValue := 100,
        termMonths := 2, principal := 100 }
    rows := [{ month := 1, openingBalance := 100, interest := 0, principal := 50,
               basePayment := 50, insurance := 0, adminCommission := 0,
               totalPayment := 50, prepayment := 0, closingBalance := 50 },
             { month := 2, openingBalance := 50, interest := 0, principal := 50,
               basePayment := 50, insurance := 0, adminCommission := 0,
               totalPayment := 50, prepayment := 0, closingBalance := 0 }]
    totals := { interestTotal := 0, principalTotal := 100, baseTotal := 100,
                insuranceTotal := 0, adminCommissionTotal := 0, grandTotal := 100,
                pagoPorMil := 500, initialDisbursementRequired := 0,
                openingCommission := 0, downPayment := 0 } }

/-- Revolving input paid off in one cycle (witness for C5). -/
def w5c : Calc.CalculationInput :=
  { principal := 1/50, apr := 0, cycleDays := 30, minPaymentPercent := 1/2,
    minPaymentFloor := 0, interestMethod := "simpleMonthlyAPR",
    minPaymentFormula := "percentOnly" }

/-- The single row `computeSchedule w5c` produces. -/
def w5row : Calc.PaymentScheduleItem :=
  { monthIndex := 0, startingBalance := 1/50, interestAccrued := 0, fees := 0,
    payment := 1/100, principalPaid := 1/100, endingBalance := 1/100,
    onlyInterestCovered := false }

/-- A resolved mortgage input with a 12% single band (witness for C2). -/
def w2inp : ResolvedMortgageInput :=
  { roundingMode := .round, startDate := "", prepaymentMode := .reduce_term,
    prepayments := [], insurance := zeroInsurance, costs := zeroCosts,
    interest := ⟨[{ fromMonth := 1, annualRate := 12/100 }]⟩,
    growth := { annualIncreasePct := 0, increaseEndYear := 0, initialPagoPorMil := none },
    ltv := 1, product := .hipoteca_fija, propertyValue := 100,
    termMonths := 12, principal := 100 }

/-- Target-months-variant revolving input, `percentOnly` at 5% (Scenario B). -/
def w7t : CalcT.CalculationInput :=
  { principal := 10000, apr := 3/5, cycleDays := 30, minPaymentPercent := 1/20,
    interestMethod := "averageDailyBalance", minPaymentFormula := "percentOnly" }

/-- Floor-variant revolving input (for the clamp/rounding part of C7). -/
def w7c : Calc.CalculationInput :=
  { principal := 10000, apr := 3/5, cycleDays := 30, minPaymentPercent := 1/20,
    minPaymentFloor := 200, interestMethod := "averageDailyBalance",
    minPaymentFormula := "percentOnly" }

/-- Revolving input with an unknown interest method and a principal large
enough that the loop runs (witness for C4). -/
def w4m : Calc.CalculationInput :=
  { principal := 100, apr := 3/5, cycleDays := 30, minPaymentPercent := 1/20,
    minPaymentFloor := 0, interestMethod := "bogusMethod",
    minPaymentFormula := "percentOnly" }

/-- Target-months-variant input with an unrecognized formula (witness for C4). -/
def w4t : CalcT.CalculationInput :=
  { principal := 100, apr := 3/5, cycleDays := 30, minPaymentPercent := 1/10,
    interestMethod := "simpleMonthlyAPR", minPaymentFormula := "mystery" }

/-- Three-month fixed mortgage with a 50-unit month-1 prepayment: pays off
after 2 rows, one short of its term (witness for C5). -/
def w5m : MortgageInput :=
  { product := .hipoteca_fija, propertyValue := 100, ltv := 1, principal := some 100,
    termMonths := 3, interest := ⟨[{ fromMonth := 1, annualRate := 0 }]⟩,
    costs := zeroCosts, insurance := zeroInsurance,
    prepayments := [⟨1, 50⟩], prepaymentMode := .reduce_term }

/-- The last row of `computeMortgage w5m`. -/
def w5mlast : AmortizationRow :=
  { month := 2, openingBalance := 1667/100, interest := 0, principal := 1667/100,
    basePayment := 1667/100, insurance := 0, adminCommission := 0,
    totalPayment := 1667/100, prepayment := 0, closingBalance := 0 }

/-- The result of `computeMortgage w5m`. -/
def w5mres : MortgageResult :=
  { input :=
      { roundingMode := .round, startDate := "", prepaymentMode := .reduce_term,
        prepayments := [⟨1, 50⟩], insurance := zeroInsurance, costs := zeroCosts,
        interest := ⟨[{ fromMonth := 1, annualRate := 0 }]⟩,
        growth := { annualIncreasePct := 0, increaseEndYear := 0, initialPagoPorMil := none },
        ltv := 1, product := .hipoteca_fija, propertyValue := 100,
        termMonths := 3, principal := 100 }
    rows := [{ month := 1, openingBalance := 100, interest := 0, principal := 3333/100,
               basePayment := 3333/100, insurance := 0, adminCommission := 0,
               totalPayment := 8333/100, prepayment := 50, closingBalance := 1667/100 },
             w5mlast]
    totals := { interestTotal := 0, principalTotal := 100, baseTotal := 50,
                insuranceTotal := 0, adminCommissionTotal := 0, grandTotal := 50,
                pagoPorMil := 3333/10, initialDisbursementRequired := 0,
                openingCommission := 0, downPayment := 0 } }

/-- One-month mortgage used by the C10 witness. -/
def w10raw : MortgageInput :=
  { product := .hipoteca_fija, propertyValue := 100, ltv := 1, principal := some 100,
    termMonths := 1, interest := ⟨[{ fromMonth := 1, annualRate := 0 }]⟩,
    costs := zeroCosts, insurance := zeroInsurance,
    prepayments := [], prepaymentMode := .reduce_term }

/-! ## Rounding toolkit -/

theorem roundToCents_eq_round2 (x : ℚ) : Calc.roundToCents x = round2 x .round := rfl

theorem round2_mono (mode : RoundingMode) {x y : ℚ} (h : x ≤ y) :
    round2 x mode ≤ round2 y mode := by
  have h100 : x * 100 ≤ y * 100 := by nlinarith
  cases mode <;> simp only [round2] <;>
    refine div_le_div_of_nonneg_right ?_ (by norm_num) |>.trans_eq rfl
  · exact_mod_cast Int.floor_le_floor (by linarith)
  · exact_mod_cast Int.floor_le_floor h100
  · exact_mod_cast Int.ceil_le_ceil h100

theorem round2_zero (mode : RoundingMode) : round2 0 mode = 0 := by
  cases mode <;> simp [round2] <;> norm_num

theorem round2_nonneg (mode : RoundingMode) {x : ℚ} (h : 0 ≤ x) :
    0 ≤ round2 x mode := by
  have := round2_mono mode h
  rwa [round2_zero] at this

theorem round2_isCent (mode : RoundingMode) (x : ℚ) : IsCent (round2 x mode) := by
  cases mode <;> exact ⟨_, rfl⟩

theorem isCent_round2_eq {x : ℚ} (h : IsCent x) (mode : RoundingMode) :
    round2 x mode = x := by
  obtain ⟨k, rfl⟩ := h
  have hk : (k : ℚ) / 100 * 100 = (k : ℚ) := by field_simp
  cases mode <;> simp only [round2, hk]
  · rw [show ⌊(k : ℚ) + 1/2⌋ = k + ⌊(1/2 : ℚ)⌋ from Int.floor_int_add k (1/2)]
    norm_num
  · rw [Int.floor_intCast]
  · rw [Int.ceil_intCast]

theorem round2_floor_le (x : ℚ) : round2 x .floor ≤ x := by
  simp only [round2]
  rw [div_le_iff (by norm_num : (0:ℚ) < 100)]
  exact Int.floor_le _

theorem round2_ceil_ge (x : ℚ) : x ≤ round2 x .ceil := by
  simp only [round2]
  rw [le_div_iff (by norm_num : (0:ℚ) < 100)]
  exact Int.le_ceil _

theorem round2_round_le (x : ℚ) : round2 x .round ≤ x + 1/200 := by
  simp only [round2]
  rw [div_le_iff (by norm_num : (0:ℚ) < 100)]
  have := Int.floor_le (x * 100 + 1/2)
  linarith

theorem round2_round_ge (x : ℚ) : x - 1/200 < round2 x .round := by
  simp only [round2]
  rw [lt_div_iff (by norm_num : (0:ℚ) < 100)]
  have := Int.lt_floor_add_one (x * 100 + 1/2)
  linarith

theorem round2_lt_add (mode : RoundingMode) (x : ℚ) : round2 x mode < x + 1/100 := by
  cases mode
  · exact (round2_round_le x).trans_lt (by linarith)
  · exact (round2_floor_le x).trans_lt (by linarith)
  · simp only [round2]
    rw [div_lt_iff (by norm_num : (0:ℚ) < 100)]
    have := Int.ceil_lt_add_one (x * 100)
    linarith

theorem round2_gt_sub (mode : RoundingMode) (x : ℚ) : x - 1/100 < round2 x mode := by
  cases mode
  · exact lt_of_lt_of_le (by linarith) (le_of_lt (round2_round_ge x))
  · simp only [round2]
    rw [lt_div_iff (by norm_num : (0:ℚ) < 100)]
    have := Int.lt_floor_add_one (x * 100)
    linarith
  · exact lt_of_lt_of_le (by linarith) (round2_ceil_ge x)

theorem round2_sub_round2_self (mode : RoundingMode) (x : ℚ) :
    round2 (x - round2 x mode) mode = 0 := by
  cases mode <;> simp only [round2]
  · have h1 : 0 ≤ (x - (⌊x * 100 + 1/2⌋ : ℚ) / 100) * 100 + 1/2 := by
      nlinarith [Int.floor_le (x * 100 + 1/2)]
    have h2 : (x - (⌊x * 100 + 1/2⌋ : ℚ) / 100) * 100 + 1/2 < 1 := by
      nlinarith [Int.lt_floor_add_one (x * 100 + 1/2)]
    rw [Int.floor_eq_zero_iff.mpr ⟨h1, h2⟩]
    norm_num
  · have h1 : 0 ≤ (x - (⌊x * 100⌋ : ℚ) / 100) * 100 := by
      nlinarith [Int.floor_le (x * 100)]
    have h2 : (x - (⌊x * 100⌋ : ℚ) / 100) * 100 < 1 := by
      nlinarith [Int.lt_floor_add_one (x * 100)]
    rw [Int.floor_eq_zero_iff.mpr ⟨h1, h2⟩]
    norm_num
  · have h1 : -1 < (x - (⌈x * 100⌉ : ℚ) / 100) * 100 := by
      nlinarith [Int.ceil_lt_add_one (x * 100)]
    have h2 : (x - (⌈x * 100⌉ : ℚ) / 100) * 100 ≤ 0 := by
      nlinarith [Int.le_ceil (x * 100)]
    rw [show ⌈(x - (⌈x * 100⌉ : ℚ) / 100) * 100⌉ = 0 from
      Int.ceil_eq_iff.mpr (by push_cast; constructor <;> linarith)]
    norm_num

theorem isCent_pos_ge {x : ℚ} (h : IsCent x) (hx : 0 < x) : 1/100 ≤ x := by
  obtain ⟨k, rfl⟩ := h
  have hk : 0 < k := by
    by_contra hk
    push_neg at hk
    have : (k : ℚ) ≤ 0 := by exact_mod_cast hk
    nlinarith
  have : (1 : ℤ) ≤ k := hk
  have : (1 : ℚ) ≤ (k : ℚ) := by exact_mod_cast this
  linarith

theorem isCent_zero : IsCent 0 := ⟨0, by norm_num⟩

theorem isCent_add {x y : ℚ} (hx : IsCent x) (hy : IsCent y) : IsCent (x + y) := by
  obtain ⟨k, rfl⟩ := hx
  obtain ⟨l, rfl⟩ := hy
  exact ⟨k + l, by push_cast; ring⟩

/-! ## Loop unfolding lemmas -/

theorem scheduleLoop_unfold (input : Calc.CalculationInput) (fuel monthIndex : ℕ)
    (currentBalance : ℚ) (h : 0 < fuel) :
    Calc.scheduleLoop input fuel monthIndex currentBalance =
      (if currentBalance > Calc.EPSILON then
        let startingBalance := currentBalance
        let balanceWithCharges := startingBalance + input.newChargesPerCycle.getD 0
        match Calc.computeCycleInterest balanceWithCharges input.apr
            input.interestMethod input.cycleDays with
        | .error e => .error e
        | .ok interestAccrued =>
          let fees := input.feesPerCycle.getD 0
          let payment := Calc.computeMinimumPayment input balanceWithCharges interestAccrued fees
          let principalPaid := payment - interestAccrued - fees
          let endingBalance := Calc.roundToCents (balanceWithCharges + interestAccrued + fees - payment)
          let onlyInterestCovered : Bool := principalPaid ≤ 0
          let item : Calc.PaymentScheduleItem :=
            { monthIndex := monthIndex
              startingBalance := Calc.roundToCents startingBalance
              interestAccrued := Calc.roundToCents interestAccrued
              fees := Calc.roundToCents fees
              payment := Calc.roundToCents payment
              principalPaid := Calc.roundToCents principalPaid
              endingBalance := Calc.roundToCents endingBalance
              onlyInterestCovered := onlyInterestCovered }
          if endingBalance > startingBalance ∧ monthIndex + 1 > 12 then
            .ok [item]
          else
            match Calc.scheduleLoop input (fuel - 1) (monthIndex + 1) endingBalance with
            | .error e => .error e
            | .ok rest => .ok (item :: rest)
      else .ok []) := by
  cases fuel with
  | zero => omega
  | succ n => simp only [Calc.scheduleLoop, Nat.add_sub_cancel]

theorem scheduleLoop_zero (input : Calc.CalculationInput) (monthIndex : ℕ)
    (bal : ℚ) : Calc.scheduleLoop input 0 monthIndex bal = .ok [] := rfl

theorem mortgageLoop_unfold (input : ResolvedMortgageInput) (pa : ℕ → ℚ)
    (fuel : ℕ) (st : BasePaymentState) (m : ℕ) (bal : ℚ) (h : 0 < fuel) :
    mortgageLoop input pa fuel st m bal =
      (if bal > 1/200 then
        match mortStep input pa m bal st with
        | .error e => .error e
        | .ok out =>
          match mortgageLoop input pa (fuel - 1) out.st (m + 1) out.closing with
          | .error e => .error e
          | .ok rest => .ok (out.row :: rest)
      else .ok []) := by
  cases fuel with
  | zero => omega
  | succ n => simp only [mortgageLoop, Nat.add_sub_cancel]

theorem mortgageLoop_zero (input : ResolvedMortgageInput) (pa : ℕ → ℚ)
    (st : BasePaymentState) (m : ℕ) (bal : ℚ) :
    mortgageLoop input pa 0 st m bal = .ok [] := rfl

/-! ## Rate lookup characterization (C9 groundwork) -/

theorem bandPred_eq_bandContains (b : InterestBand) (m : ℕ) :
    ((decide (m ≥ b.fromMonth) && (b.toMonth.isNone || decide (m ≤ b.toMonth.getD 0))) = true)
      ↔ bandContains b m := by
  cases h : b.toMonth <;> simp [bandContains, h]

theorem bandFind_first_match (m : ℕ) (pre : List InterestBand)
    (b : InterestBand) (post : List InterestBand)
    (hpre : ∀ b' ∈ pre, ¬ bandContains b' m) (hb : bandContains b m) :
    (pre ++ b :: post).find? (fun x =>
        decide (m ≥ x.fromMonth) && (x.toMonth.isNone || decide (m ≤ x.toMonth.getD 0)))
      = some b := by
  induction pre with
  | nil =>
    have hb2 : (decide (m ≥ b.fromMonth) &&
        (b.toMonth.isNone || decide (m ≤ b.toMonth.getD 0))) = true :=
      (bandPred_eq_bandContains b m).mpr hb
    simp only [List.nil_append, List.find?_cons, hb2]
  | cons p pre ih =>
    have hp : ¬ bandContains p m := hpre p (List.mem_cons_self p pre)
    have hp2 : (decide (m ≥ p.fromMonth) &&
        (p.toMonth.isNone || decide (m ≤ p.toMonth.getD 0))) = false := by
      rw [← Bool.not_eq_true]
      exact fun hc => hp ((bandPred_eq_bandContains p m).mp hc)
    simp only [List.cons_append, List.find?_cons, hp2]
    exact ih fun b' hb' => hpre b' (List.mem_cons_of_mem p hb')

theorem getMonthlyRateForMonth_first_match (m : ℕ) (pre : List InterestBand)
    (b : InterestBand) (post : List InterestBand)
    (hpre : ∀ b' ∈ pre, ¬ bandContains b' m) (hb : bandContains b m) :
    getMonthlyRateForMonth (pre ++ b :: post) m = some (b.annualRate / 12) := by
  unfold getMonthlyRateForMonth
  rw [bandFind_first_match m pre b post hpre hb]

theorem getMonthlyRateForMonth_fallback (m : ℕ) (bands : List InterestBand)
    (h : bands ≠ []) (hnone : ∀ b ∈ bands, ¬ bandContains b m) :
    getMonthlyRateForMonth bands m = some ((bands.getLast h).annualRate / 12) := by
  have hfind : bands.find? (fun x =>
      decide (m ≥ x.fromMonth) && (x.toMonth.isNone || decide (m ≤ x.toMonth.getD 0))) = none := by
    rw [List.find?_eq_none]
    intro b hb hc
    exact hnone b hb ((bandPred_eq_bandContains b m).mp hc)
  unfold getMonthlyRateForMonth
  rw [hfind, List.getLast?_eq_getLast_of_ne_nil h]
  rfl

theorem getMonthlyRateForMonth_empty (m : ℕ) :
    getMonthlyRateForMonth [] m = none := rfl

theorem getMonthlyRateForMonth_total (m : ℕ) (bands : List InterestBand)
    (h : bands ≠ []) : (getMonthlyRateForMonth bands m).isSome = true := by
  unfold getMonthlyRateForMonth
  cases hf : bands.find? (fun x =>
      decide (m ≥ x.fromMonth) && (x.toMonth.isNone || decide (m ≤ x.toMonth.getD 0))) with
  | some b => rfl
  | none =>
    simp only
    rw [List.getLast?_eq_getLast_of_ne_nil h]
    rfl

/-! ## Termination bounds (C5 groundwork) -/

theorem scheduleLoop_length_le (input : Calc.CalculationInput) :
    ∀ (fuel monthIndex : ℕ) (bal : ℚ) (sched : List Calc.PaymentScheduleItem),
      Calc.scheduleLoop input fuel monthIndex bal = .ok sched → sched.length ≤ fuel := by
  intro fuel
  induction fuel with
  | zero =>
    intro idx bal sched h
    simp only [Calc.scheduleLoop] at h
    cases h
    simp
  | succ n ih =>
    intro idx bal sched h
    simp only [Calc.scheduleLoop] at h
    split at h
    · split at h
      · cases h
      · split at h
        · cases h
          simp
        · split at h
          · cases h
          · cases h
            simpa using Nat.succ_le_succ (ih _ _ _ (by assumption))
    · cases h
      simp

theorem roundToCents_idem (x : ℚ) :
    Calc.roundToCents (Calc.roundToCents x) = Calc.roundToCents x := by
  rw [roundToCents_eq_round2, roundToCents_eq_round2]
  exact isCent_round2_eq (round2_isCent .round x) .round

theorem scheduleLoop_exit (input : Calc.CalculationInput) :
    ∀ (fuel monthIndex : ℕ) (bal : ℚ) (sched : List Calc.PaymentScheduleItem),
      Calc.scheduleLoop input fuel monthIndex bal = .ok sched →
      sched.length < fuel → (IsCent bal ∨ monthIndex = 0) →
      (sched = [] → bal ≤ Calc.EPSILON) ∧
      (∀ last, sched.getLast? = some last →
        last.endingBalance ≤ Calc.EPSILON ∨
        (last.startingBalance < last.endingBalance ∧ 12 < monthIndex + sched.length)) := by
  intro fuel
  induction fuel with
  | zero => 
    intro idx bal sched _ hlen _
    omega
  | succ n ih =>
    intro idx bal sched h hlen hcent
    simp only [Calc.scheduleLoop] at h
    split at h
    · rename_i hbal
      split at h
      · cases h
      · rename_i interest hint
        split at h
        · rename_i hbreak
          cases h
          refine ⟨(fun habs => by cases habs), fun last hlast => ?_⟩
          simp only [List.getLast?_singleton, Option.some.injEq] at hlast
          subst hlast
          right
          simp only [List.length_singleton]
          obtain ⟨hgt, hidx⟩ := hbreak
          constructor
          · have hcent' : IsCent bal := by
              rcases hcent with hc | hc
              · exact hc
              · omega
            have hsb : Calc.roundToCents bal = bal := by
              rw [roundToCents_eq_round2]
              exact isCent_round2_eq hcent' .round
            simpa [roundToCents_idem, hsb] using hgt
          · omega
        · split at h
          · cases h
          · rename_i rest hrest
            cases h
            have hlen' : rest.length < n := by
              simp only [List.length_cons] at hlen
              omega
            have hrec := ih (idx + 1) _ rest hrest hlen'
              (Or.inl (by rw [roundToCents_eq_round2]; exact round2_isCent .round _))
            refine ⟨(fun habs => by cases habs), fun last hlast => ?_⟩
            cases hr : rest with
            | nil =>
              subst hr
              simp only [List.getLast?_singleton, Option.some.injEq] at hlast
              subst hlast
              left
              simpa [roundToCents_idem] using hrec.1 rfl
            | cons r rest' =>
              subst hr
              rw [List.getLast?_cons_cons] at hlast
              rcases hrec.2 last hlast with hle | ⟨hlt, hlen2⟩
              · exact Or.inl hle
              · refine Or.inr ⟨hlt, ?_⟩
                simp only [List.length_cons] at hlen2 ⊢
                omega
    · cases h
      rename_i hbal
      exact ⟨fun _ => le_of_not_lt hbal, fun last hlast => by cases hlast⟩

/-! ## Mortgage step facts (C1 groundwork) -/

theorem round2_round_nonneg {x : ℚ} (h : -(1/200) ≤ x) : 0 ≤ round2 x .round := by
  simp only [round2]
  apply div_nonneg _ (by norm_num)
  have : (0 : ℤ) ≤ ⌊x * 100 + 1/2⌋ := Int.floor_nonneg.mpr (by linarith)
  exact_mod_cast this

theorem round2_ceil_nonneg {x : ℚ} (h : -(1/100) < x) : 0 ≤ round2 x .ceil := by
  simp only [round2]
  apply div_nonneg _ (by norm_num)
  have : (-1 : ℤ) < ⌈x * 100⌉ := Int.lt_ceil.mpr (by push_cast; linarith)
  exact_mod_cast this

/-- Non-negativity of the clamped closing balance computation of the mortgage
loop: `principal` rounded from a value in `[0, bal]`, prepayment clamped to
the remaining balance. -/
theorem closing_nonneg (mode : RoundingMode) (bal p prepRaw : ℚ)
    (hp0 : 0 ≤ p) (hpb : p ≤ bal) :
    0 ≤ round2 (bal - round2 p mode -
      (if round2 prepRaw mode > 0 ∧ round2 prepRaw mode > bal - round2 p mode
       then round2 (bal - round2 p mode) mode else round2 prepRaw mode)) mode := by
  set q := round2 p mode with hq
  set d := bal - q with hd
  set s := round2 prepRaw mode with hs
  by_cases hclamp : s > 0 ∧ s > d
  · rw [if_pos hclamp]
    rw [show bal - q - round2 d mode = d - round2 d mode by rw [hd]]
    rw [round2_sub_round2_self]
  · rw [if_neg hclamp]
    push_neg at hclamp
    rcases le_or_lt s 0 with hs0 | hs0
    · have harg : d ≤ bal - q - s := by simp only [hd]; linarith
      cases mode
      · have hdlb : -(1/200) ≤ d := by
          have := round2_round_le p
          simp only [hd, hq]
          linarith
        exact round2_round_nonneg (by linarith)
      · have hdlb : (0:ℚ) ≤ d := by
          have := round2_floor_le p
          simp only [hd, hq]
          linarith
        exact round2_nonneg _ (by linarith)
      · have hdlb : -(1/100) < d := by
          have := round2_lt_add .ceil p
          simp only [hd, hq]
          linarith
        exact round2_ceil_nonneg (by linarith)
    · have hsd : s ≤ d := hclamp hs0
      exact round2_nonneg _ (by linarith)

/-- What one successful mortgage loop iteration guarantees about its row. -/
theorem mortStep_ok_spec (input : ResolvedMortgageInput) (pa : ℕ → ℚ) (m : ℕ)
    (bal : ℚ) (st : BasePaymentState) (out : MortStepOut)
    (h : mortStep input pa m bal st = .ok out) (hbal : 0 ≤ bal) :
    out.row.closingBalance =
      round2 (out.row.openingBalance - out.row.principal - out.row.prepayment)
        input.roundingMode ∧
    0 ≤ out.row.closingBalance ∧
    out.row.openingBalance = bal ∧
    out.closing = out.row.closingBalance := by
  simp only [mortStep] at h
  split at h
  · cases h
  · rename_i hguard
    cases h
    set base₀ := (mortBase input st m bal).1 with hbase₀
    set r := rateD input.interest.bands m with hr
    have hp0 : 0 ≤ base₀ - bal * r := not_lt.mp hguard
    refine ⟨rfl, ?_, rfl, rfl⟩
    simp only
    by_cases hcl : base₀ - bal * r > bal
    · rw [if_pos hcl]
      simpa using closing_nonneg input.roundingMode bal bal (pa m) hbal le_rfl
    · rw [if_neg hcl]
      simpa using closing_nonneg input.roundingMode bal (base₀ - bal * r) (pa m)
        hp0 (not_lt.mp hcl)

theorem mortgageLoop_rows_spec (input : ResolvedMortgageInput) (pa : ℕ → ℚ) :
    ∀ (fuel : ℕ) (st : BasePaymentState) (m : ℕ) (bal : ℚ)
      (rows : List AmortizationRow),
      mortgageLoop input pa fuel st m bal = .ok rows →
      ∀ row ∈ rows,
        row.closingBalance =
          round2 (row.openingBalance - row.principal - row.prepayment)
            input.roundingMode ∧
        0 ≤ row.closingBalance := by
  intro fuel
  induction fuel with
  | zero =>
    intro st m bal rows h row hrow
    cases h
    cases hrow
  | succ n ih =>
    intro st m bal rows h row hrow
    simp only [mortgageLoop] at h
    split at h
    · rename_i hbal
      split at h
      · cases h
      · rename_i out hstep
        split at h
        · cases h
        · rename_i rest hrest
          cases h
          rcases List.mem_cons.mp hrow with hhead | htail
          · subst hhead
            obtain ⟨h1, h2, _, _⟩ :=
              mortStep_ok_spec input pa m bal st out hstep (by linarith)
            exact ⟨h1, h2⟩
          · exact ih _ _ _ _ hrest row htail
    · cases h
      cases hrow

theorem mortgageLoop_length_le (input : ResolvedMortgageInput) (pa : ℕ → ℚ) :
    ∀ (fuel : ℕ) (st : BasePaymentState) (m : ℕ) (bal : ℚ)
      (rows : List AmortizationRow),
      mortgageLoop input pa fuel st m bal = .ok rows → rows.length ≤ fuel := by
  intro fuel
  induction fuel with
  | zero =>
    intro st m bal rows h
    cases h
    simp
  | succ n ih =>
    intro st m bal rows h
    simp only [mortgageLoop] at h
    split at h
    · split at h
      · cases h
      · split at h
        · cases h
        · cases h
          simpa using Nat.succ_le_succ (ih _ _ _ _ (by assumption))
    · cases h
      simp

theorem mortgageLoop_exit (input : ResolvedMortgageInput) (pa : ℕ → ℚ) :
    ∀ (fuel : ℕ) (st : BasePaymentState) (m : ℕ) (bal : ℚ)
      (rows : List AmortizationRow),
      mortgageLoop input pa fuel st m bal = .ok rows → rows.length < fuel →
      (rows = [] → bal ≤ 1/200) ∧
      (∀ last, rows.getLast? = some last → last.closingBalance ≤ 1/200) := by
  intro fuel
  induction fuel with
  | zero =>
    intro st m bal rows _ hlen
    omega
  | succ n ih =>
    intro st m bal rows h hlen
    simp only [mortgageLoop] at h
    split at h
    · rename_i hbal
      split at h
      · cases h
      · rename_i out hstep
        split at h
        · cases h
        · rename_i rest hrest
          cases h
          have hlen' : rest.length < n := by
            simp only [List.length_cons] at hlen
            omega
          have hrec := ih _ _ _ rest hrest hlen'
          refine ⟨(fun habs => by cases habs), fun last hlast => ?_⟩
          obtain ⟨_, _, _, hcl⟩ :=
            mortStep_ok_spec input pa m bal st out hstep (by linarith)
          cases hr : rest with
          | nil =>
            subst hr
            simp only [List.getLast?_singleton, Option.some.injEq] at hlast
            subst hlast
            rw [← hcl]
            exact hrec.1 rfl
          | cons r rest' =>
            subst hr
            rw [List.getLast?_cons_cons] at hlast
            exact hrec.2 last hlast
    · cases h
      rename_i hbal
      exact ⟨fun _ => le_of_not_lt hbal, fun last hlast => by cases hlast⟩

/-! ## Insufficient payment guard (C2 groundwork) -/

theorem mortStep_insufficient (input : ResolvedMortgageInput) (pa : ℕ → ℚ)
    (m : ℕ) (bal : ℚ) (st : BasePaymentState)
    (h : (mortBase input st m bal).1 < bal * rateD input.interest.bands m) :
    mortStep input pa m bal st = .error (.insufficientPayment m) := by
  simp only [mortStep]
  rw [if_pos (by linarith)]

theorem mortgageLoop_insufficient (input : ResolvedMortgageInput) (pa : ℕ → ℚ)
    (fuel : ℕ) (st : BasePaymentState) (m : ℕ) (bal : ℚ)
    (hbal : bal > 1/200)
    (h : (mortBase input st m bal).1 < bal * rateD input.interest.bands m) :
    mortgageLoop input pa (fuel + 1) st m bal = .error (.insufficientPayment m) := by
  simp only [mortgageLoop]
  rw [if_pos hbal, mortStep_insufficient input pa m bal st h]

/-! ## Annuity facts and error-free fixed runs (C6 groundwork) -/

theorem annuity_zero_rate (pv : ℚ) (n : ℕ) : annuity pv 0 n = pv / n := by
  simp [annuity]

theorem zpow_neg_lt_one {a : ℚ} (ha : 1 < a) {n : ℕ} (hn : 1 ≤ n) :
    a ^ (-(n : ℤ)) < 1 ∧ 0 < a ^ (-(n : ℤ)) ∧ a * a ^ (-(n : ℤ)) ≤ 1 := by
  have ha0 : (0 : ℚ) < a := by linarith
  have hpos : 0 < a ^ (-(n : ℤ)) := zpow_pos ha0 _
  have hmul : a * a ^ (-(n : ℤ)) = a ^ (1 - (n : ℤ)) := by
    rw [zpow_sub₀ (ne_of_gt ha0)]
    simp [zpow_natCast]
    ring
  have hle1 : a ^ (1 - (n : ℤ)) ≤ 1 := by
    apply zpow_le_one_of_nonpos₀ (le_of_lt ha)
    omega
  have hlt : a ^ (-(n : ℤ)) < 1 := by
    have h2 : a * a ^ (-(n : ℤ)) ≤ 1 := hmul ▸ hle1
    nlinarith
  exact ⟨hlt, hpos, hmul ▸ hle1⟩

theorem annuity_ge_interest {pv r : ℚ} {n : ℕ} (hpv : 0 ≤ pv) (hr : 0 ≤ r)
    (hn : 1 ≤ n) : pv * r ≤ annuity pv r n := by
  rcases eq_or_lt_of_le hr with hr0 | hrpos
  · subst hr0
    rw [annuity_zero_rate]
    simp only [mul_zero]
    positivity
  · obtain ⟨hv1, hv0, _⟩ := zpow_neg_lt_one (by linarith : (1:ℚ) < 1 + r) hn
    simp only [annuity, if_neg (ne_of_gt hrpos)]
    rw [le_div_iff₀ (by linarith : (0:ℚ) < 1 - (1 + r) ^ (-(n : ℤ)))]
    nlinarith [mul_nonneg (mul_nonneg hpv (le_of_lt hrpos)) (le_of_lt hv0)]

theorem annuity_le_pv_mul {pv r : ℚ} {n : ℕ} (hpv : 0 ≤ pv) (hr : 0 ≤ r)
    (hn : 1 ≤ n) : annuity pv r n ≤ pv * (1 + r) := by
  rcases eq_or_lt_of_le hr with hr0 | hrpos
  · subst hr0
    rw [annuity_zero_rate]
    have hn' : (1 : ℚ) ≤ (n : ℚ) := by exact_mod_cast hn
    rw [div_le_iff₀ (by linarith : (0:ℚ) < (n:ℚ))]
    nlinarith
  · obtain ⟨hv1, hv0, hmul⟩ := zpow_neg_lt_one (by linarith : (1:ℚ) < 1 + r) hn
    simp only [annuity, if_neg (ne_of_gt hrpos)]
    rw [div_le_iff₀ (by linarith : (0:ℚ) < 1 - (1 + r) ^ (-(n : ℤ)))]
    nlinarith [mul_nonneg hpv (le_of_lt hrpos)]

/-- One error-free iteration of the loop under a constant base payment that
covers the interest, without prepayments. -/
theorem mortStep_fixed_ok (input : ResolvedMortgageInput) (pa : ℕ → ℚ) (B : ℚ)
    (m : ℕ) (bal : ℚ) (hpa : pa m = 0)
    (hB : bal * rateD input.interest.bands m ≤ B) (hbal : 0 ≤ bal) :
    ∃ out, mortStep input pa m bal (.fixedB B) = .ok out ∧
      out.st = .fixedB B ∧
      out.closing ≤ round2 bal input.roundingMode ∧
      0 ≤ out.closing ∧ IsCent out.closing ∧
      (B - bal * rateD input.interest.bands m ≤ bal →
        out.row.basePayment = round2 B input.roundingMode) := by
  set r := rateD input.interest.bands m with hr
  simp only [mortStep, mortBase, basePaymentValue]
  rw [if_neg (show ¬ (B - bal * r < 0) by linarith)]
  simp only [hpa, round2_zero, lt_irrefl, false_and, if_false]
  refine ⟨_, rfl, ?_, ?_, ?_, ?_, ?_⟩
  · simp only [lt_irrefl, false_and, if_false]
  · simp only [sub_zero]
    apply round2_mono
    by_cases hcl : B - bal * r > bal
    · rw [if_pos hcl]
      simp only
      linarith [round2_nonneg input.roundingMode hbal]
    · rw [if_neg hcl]
      simp only
      linarith [round2_nonneg input.roundingMode (show (0:ℚ) ≤ B - bal * r by linarith)]
  · simp only [sub_zero]
    by_cases hcl : B - bal * r > bal
    · rw [if_pos hcl]
      simp only
      have := closing_nonneg input.roundingMode bal bal 0 hbal le_rfl
      simpa [round2_zero, lt_irrefl] using this
    · rw [if_neg hcl]
      simp only
      have := closing_nonneg input.roundingMode bal (B - bal * r) 0
        (by linarith) (not_lt.mp hcl)
      simpa [round2_zero, lt_irrefl] using this
  · exact round2_isCent _ _
  · intro hle
    simp only
    rw [if_neg (not_lt.mpr hle)]

theorem prepayByMonth_nil : prepayByMonth [] = fun _ => 0 := rfl

theorem initialBaseState_fixed (input : ResolvedMortgageInput)
    (h : input.product ≠ .hipoteca_creciente) :
    initialBaseState input = .fixedB (buildFixedBasePayment input) := by
  unfold initialBaseState
  cases hp : input.product <;> first | rfl | exact absurd hp h

/-- The whole fixed-payment loop completes without an error when the constant
base payment covers the interest on any balance up to `cap` and there are no
prepayments. -/
theorem mortgageLoop_fixed_ok (input : ResolvedMortgageInput) (pa : ℕ → ℚ)
    (B cap r : ℚ) (hpa : ∀ k, pa k = 0) (hr : 0 ≤ r)
    (hrate : ∀ k, 1 ≤ k → rateD input.interest.bands k = r)
    (hB : cap * r ≤ B) :
    ∀ (fuel m : ℕ) (bal : ℚ), 1 ≤ m → 0 ≤ bal → IsCent bal → bal ≤ cap →
      ∃ rows, mortgageLoop input pa fuel (.fixedB B) m bal = .ok rows := by
  intro fuel
  induction fuel with
  | zero => exact fun m bal _ _ _ _ => ⟨[], rfl⟩
  | succ n ih =>
    intro m bal hm hbal hcent hcap
    by_cases hgt : bal > 1/200
    · have hBm : bal * rateD input.interest.bands m ≤ B := by
        rw [hrate m hm]
        nlinarith
      obtain ⟨out, hstep, hst, hcl, hcl0, hclc, _⟩ :=
        mortStep_fixed_ok input pa B m bal (hpa m) hBm hbal
      have hcl' : out.closing ≤ cap := by
        have : round2 bal input.roundingMode = bal := isCent_round2_eq hcent _
        rw [this] at hcl
        linarith
      obtain ⟨rest, hrest⟩ := ih (m + 1) out.closing (by omega) hcl0 hclc hcl'
      refine ⟨out.row :: rest, ?_⟩
      simp only [mortgageLoop]
      rw [if_pos hgt, hstep]
      dsimp only
      rw [hst, hrest]
    · exact ⟨[], by simp only [mortgageLoop]; rw [if_neg hgt]⟩

/-- In a successful step from a constant-base state, if the final-installment
clamp does not fire, the recorded base payment is the rounded constant. -/
theorem mortStep_fixedB_base (input : ResolvedMortgageInput) (pa : ℕ → ℚ)
    (m : ℕ) (bal B : ℚ) (out : MortStepOut)
    (h : mortStep input pa m bal (.fixedB B) = .ok out)
    (hncl : B - bal * rateD input.interest.bands m ≤ bal) :
    out.row.basePayment = round2 B input.roundingMode := by
  simp only [mortStep, mortBase, basePaymentValue] at h
  split at h
  · cases h
  · cases h
    simp only
    rw [if_neg (not_lt.mpr hncl)]

/-- First-row base payment of any successful non-growing run: the annuity over
the full term at the month-1 rate, rounded to cents. -/
theorem computeMortgage_fixed_head (raw : MortgageInput) (res : MortgageResult)
    (hok : computeMortgage raw = .ok res)
    (hprod : raw.product ≠ .hipoteca_creciente)
    (hbal : 1/200 < (resolveMortgageInput raw).principal)
    (hn : 1 ≤ raw.termMonths)
    (hr : 0 ≤ rateD raw.interest.bands 1) :
    res.rows.head?.map (fun row => row.basePayment) =
      some (round2 (annuity (resolveMortgageInput raw).principal
        (rateD raw.interest.bands 1) raw.termMonths)
        (resolveMortgageInput raw).roundingMode) := by
  unfold computeMortgage at hok
  dsimp only at hok
  set input := resolveMortgageInput raw with hinput
  have hprod' : input.product ≠ .hipoteca_creciente := hprod
  rw [initialBaseState_fixed input hprod'] at hok
  split at hok
  · cases hok
  · rename_i rows hloop
    cases hok
    have hn' : 0 < input.termMonths := hn
    rw [mortgageLoop_unfold input _ input.termMonths _ 1 input.principal hn'] at hloop
    rw [if_pos hbal] at hloop
    set B := buildFixedBasePayment input with hB
    have hle : B - input.principal * rateD input.interest.bands 1 ≤ input.principal := by
      have := @annuity_le_pv_mul input.principal
        (rateD input.interest.bands 1) input.termMonths
        (by linarith) hr hn
      rw [hB]
      unfold buildFixedBasePayment
      nlinarith [this]
    cases hstep : mortStep input (prepayByMonth input.prepayments) 1 input.principal
        (.fixedB B) with
    | error e =>
      rw [hstep] at hloop
      cases hloop
    | ok out =>
      rw [hstep] at hloop
      dsimp only at hloop
      cases hrec : mortgageLoop input (prepayByMonth input.prepayments)
          (input.termMonths - 1) out.st (1 + 1) out.closing with
      | error e =>
        rw [hrec] at hloop
        cases hloop
      | ok rest =>
        rw [hrec] at hloop
        cases hloop
        simp only [List.head?_cons, Option.map_some']
        rw [mortStep_fixedB_base input _ 1 input.principal B out hstep hle]
        rfl

/-! ## Prepayment map aggregation (C10 groundwork) -/

theorem prepaySum_cons (p : Prepayment) (l : List Prepayment) (m : ℕ) :
    prepaySum (p :: l) m = (if p.month = m then p.amount else 0) + prepaySum l m := by
  simp [prepaySum]

theorem prepaySum_append (l₁ l₂ : List Prepayment) (m : ℕ) :
    prepaySum (l₁ ++ l₂) m = prepaySum l₁ m + prepaySum l₂ m := by
  simp [prepaySum]

theorem prepayByMonth_foldl (l : List Prepayment) :
    ∀ (f : ℕ → ℚ) (m : ℕ),
      (l.foldl (fun f p => Function.update f p.month (f p.month + p.amount)) f) m =
        f m + prepaySum l m := by
  induction l with
  | nil =>
    intro f m
    simp [prepaySum]
  | cons p l ih =>
    intro f m
    rw [List.foldl_cons, ih, prepaySum_cons]
    rcases eq_or_ne m p.month with hm | hm
    · subst hm
      rw [Function.update_same, if_pos rfl]
      ring
    · rw [Function.update_noteq hm, if_neg (fun hc => hm hc.symm)]
      ring

theorem prepayByMonth_eq_prepaySum (l : List Prepayment) (m : ℕ) :
    prepayByMonth l m = prepaySum l m := by
  unfold prepayByMonth
  rw [prepayByMonth_foldl]
  simp

theorem mortStep_prepay_congr (inp : ResolvedMortgageInput) (l : List Prepayment)
    (pa : ℕ → ℚ) (m : ℕ) (bal : ℚ) (st : BasePaymentState) :
    mortStep { inp with prepayments := l } pa m bal st = mortStep inp pa m bal st := rfl

theorem mortgageLoop_prepay_congr (inp : ResolvedMortgageInput) (l : List Prepayment)
    (pa : ℕ → ℚ) :
    ∀ (fuel : ℕ) (st : BasePaymentState) (m : ℕ) (bal : ℚ),
      mortgageLoop { inp with prepayments := l } pa fuel st m bal =
        mortgageLoop inp pa fuel st m bal := by
  intro fuel
  induction fuel with
  | zero => intro st m bal; rfl
  | succ n ih =>
    intro st m bal
    simp only [mortgageLoop, mortStep_prepay_congr]
    cases mortStep inp pa m bal st with
    | error e => rfl
    | ok out =>
      dsimp only
      rw [ih]

theorem mkTotals_prepay_congr (inp : ResolvedMortgageInput) (l : List Prepayment)
    (rows : List AmortizationRow) :
    mkTotals { inp with prepayments := l } rows = mkTotals inp rows := rfl

/-! ## Reduce-term monotonicity (C8 groundwork): relational step lemma -/

theorem round2_pos_cent {x : ℚ} (mode : RoundingMode) (h : 0 < round2 x mode) :
    1/100 ≤ round2 x mode :=
  isCent_pos_ge (round2_isCent mode x) h

/-- Comparing one loop iteration of the zero-prepayment run against the same
iteration with a (non-negative) prepayment, under a constant base payment and
`reduce_term` mode: the prepaid run cannot fail, its closing balance is no
larger, and its interest row is no larger. -/
theorem mortStep_rel (input : ResolvedMortgageInput) (pa pa' : ℕ → ℚ) (B : ℚ)
    (m : ℕ) (bal bal' : ℚ) (out : MortStepOut)
    (hmode : input.prepaymentMode = .reduce_term)
    (hr : 0 ≤ rateD input.interest.bands m)
    (hpa : pa m = 0) (hpa' : 0 ≤ pa' m)
    (hbal : 1/200 < bal) (hbal' : 1/200 < bal')
    (hle : bal' ≤ bal)
    (h : mortStep input pa m bal (.fixedB B) = .ok out) :
    ∃ out', mortStep input pa' m bal' (.fixedB B) = .ok out' ∧
      out'.closing ≤ out.closing ∧
      out'.row.interest ≤ out.row.interest ∧
      out'.st = .fixedB B ∧ out.st = .fixedB B := by
  set r := rateD input.interest.bands m with hrdef
  simp only [mortStep, mortBase, basePaymentValue, ← hrdef] at h ⊢
  split at h
  · cases h
  · rename_i hguard
    cases h
    have hg : 0 ≤ B - bal * r := not_lt.mp hguard
    have hg' : 0 ≤ B - bal' * r := by nlinarith
    rw [if_neg (not_lt.mpr hg')]
    simp only [hpa, round2_zero, lt_irrefl, false_and, if_false, sub_zero, hmode]
    have hC0 : 0 ≤ round2 (bal - round2
        ((if B - bal * r > bal then (bal, bal * r + bal) else (B - bal * r, B)).1)
        input.roundingMode) input.roundingMode := by
      by_cases hcl : B - bal * r > bal
      · rw [if_pos hcl]
        have := closing_nonneg input.roundingMode bal bal 0 (by linarith) le_rfl
        simpa [round2_zero, lt_irrefl] using this
      · rw [if_neg hcl]
        have := closing_nonneg input.roundingMode bal (B - bal * r) 0
          hg (not_lt.mp hcl)
        simpa [round2_zero, lt_irrefl] using this
    refine ⟨_, rfl, ?_, ?_, ?_, ?_⟩
    · -- closing comparison
      simp only
      set s' := round2 (pa' m) input.roundingMode with hs'
      have hs'0 : 0 ≤ s' := round2_nonneg _ hpa'
      by_cases hcl' : B - bal' * r > bal'
      · -- primed run clamps principal to the whole balance
        rw [if_pos hcl']
        simp only
        set q' := round2 bal' input.roundingMode with hq'
        have hd'lt : bal' - q' < 1/100 := by
          have := round2_gt_sub input.roundingMode bal'
          rw [← hq'] at this
          linarith
        have hC' : round2 (bal' - q' -
            (if s' > 0 ∧ s' > bal' - q' then round2 (bal' - q') input.roundingMode
             else s')) input.roundingMode = 0 := by
          by_cases hsc : s' > 0 ∧ s' > bal' - q'
          · rw [if_pos hsc]
            have heq : bal' - q' - round2 (bal' - q') input.roundingMode =
                (bal' - q') - round2 (bal' - q') input.roundingMode := by ring
            rw [heq, round2_sub_round2_self]
          · rw [if_neg hsc]
            push_neg at hsc
            rcases eq_or_lt_of_le hs'0 with hz | hpos
            · rw [← hz, sub_zero]
              have heq : bal' - q' = bal' - round2 bal' input.roundingMode := by
                rw [hq']
              rw [heq, round2_sub_round2_self]
            · have h100 : 1/100 ≤ s' := round2_pos_cent input.roundingMode hpos
              have := hsc hpos
              linarith
        rw [hC']
        exact hC0
      · -- primed run does not clamp; then the base run does not clamp either
        have hclb : ¬ (B - bal * r > bal) := by
          intro hc
          exact hcl' (by nlinarith)
        rw [if_neg hclb, if_neg hcl']
        rw [if_neg hclb] at hC0
        simp only at hC0 ⊢
        set q := round2 (B - bal * r) input.roundingMode with hq
        set q' := round2 (B - bal' * r) input.roundingMode with hq2
        have hqq : q ≤ q' := by
          rw [hq, hq2]
          apply round2_mono
          nlinarith
        have hdd : bal' - q' ≤ bal - q := by linarith
        by_cases hsc : s' > 0 ∧ s' > bal' - q'
        · rw [if_pos hsc]
          have heq : bal' - q' - round2 (bal' - q') input.roundingMode =
              (bal' - q') - round2 (bal' - q') input.roundingMode := by ring
          rw [heq, round2_sub_round2_self]
          exact hC0
        · rw [if_neg hsc]
          push_neg at hsc
          rcases eq_or_lt_of_le hs'0 with hz | hpos
          · rw [← hz, sub_zero]
            exact round2_mono _ (by linarith)
          · have := hsc hpos
            exact round2_mono _ (by linarith)
    · -- interest comparison
      simp only
      apply round2_mono
      nlinarith
    · -- primed state unchanged (reduce_term)
      simp only
      rw [if_neg (fun hc => (PrepaymentMode.noConfusion hc.2.1 : False))]
    · -- base state unchanged
      trivial

theorem mortStep_interest_eq (input : ResolvedMortgageInput) (pa : ℕ → ℚ) (m : ℕ)
    (bal : ℚ) (st : BasePaymentState) (out : MortStepOut)
    (h : mortStep input pa m bal st = .ok out) :
    out.row.interest = round2 (bal * rateD input.interest.bands m) input.roundingMode := by
  simp only [mortStep] at h
  split at h
  · cases h
  · cases h
    rfl

theorem mortgageLoop_interest_nonneg (input : ResolvedMortgageInput) (pa : ℕ → ℚ)
    (hr : ∀ k, 0 ≤ rateD input.interest.bands k) :
    ∀ (fuel : ℕ) (st : BasePaymentState) (m : ℕ) (bal : ℚ)
      (rows : List AmortizationRow),
      mortgageLoop input pa fuel st m bal = .ok rows →
      ∀ row ∈ rows, 0 ≤ row.interest := by
  intro fuel
  induction fuel with
  | zero =>
    intro st m bal rows h row hrow
    cases h
    cases hrow
  | succ n ih =>
    intro st m bal rows h row hrow
    simp only [mortgageLoop] at h
    split at h
    · rename_i hbal
      split at h
      · cases h
      · rename_i out hstep
        split at h
        · cases h
        · rename_i rest hrest
          cases h
          rcases List.mem_cons.mp hrow with hhead | htail
          · subst hhead
            rw [mortStep_interest_eq input pa m bal st out hstep]
            exact round2_nonneg _ (mul_nonneg (by linarith) (hr m))
          · exact ih _ _ _ _ hrest row htail
    · cases h
      cases hrow

theorem interest_sum_nonneg (rows : List AmortizationRow)
    (h : ∀ row ∈ rows, 0 ≤ row.interest) :
    0 ≤ (rows.map (fun r => r.interest)).sum := by
  apply List.sum_nonneg
  intro x hx
  obtain ⟨row, hrow, rfl⟩ := List.mem_map.mp hx
  exact h row hrow

theorem foldl_add_eq_sum (f : AmortizationRow → ℚ) (rows : List AmortizationRow) :
    ∀ c : ℚ, rows.foldl (fun s r => s + f r) c = c + (rows.map f).sum := by
  induction rows with
  | nil => intro c; simp
  | cons r rows ih =>
    intro c
    rw [List.foldl_cons, ih, List.map_cons, List.sum_cons]
    ring

/-- Relational loop lemma for the reduce-term monotonicity: the prepaid run
succeeds, produces no more rows, and accrues no more interest. -/
theorem mortgageLoop_rel (input : ResolvedMortgageInput) (pa pa' : ℕ → ℚ) (B : ℚ)
    (hmode : input.prepaymentMode = .reduce_term)
    (hr : ∀ k, 0 ≤ rateD input.interest.bands k)
    (hpa : ∀ k, pa k = 0) (hpa' : ∀ k, 0 ≤ pa' k) :
    ∀ (fuel m : ℕ) (bal bal' : ℚ) (rows : List AmortizationRow),
      bal' ≤ bal →
      mortgageLoop input pa fuel (.fixedB B) m bal = .ok rows →
      ∃ rows', mortgageLoop input pa' fuel (.fixedB B) m bal' = .ok rows' ∧
        rows'.length ≤ rows.length ∧
        (rows'.map (fun r => r.interest)).sum ≤ (rows.map (fun r => r.interest)).sum := by
  intro fuel
  induction fuel with
  | zero =>
    intro m bal bal' rows hle h
    cases h
    exact ⟨[], rfl, le_rfl, le_rfl⟩
  | succ n ih =>
    intro m bal bal' rows hle h
    have h₀ := h
    simp only [mortgageLoop] at h
    split at h
    · rename_i hbal
      by_cases hbal' : bal' > 1/200
      · split at h
        · cases h
        · rename_i out hstep
          split at h
          · cases h
          · rename_i rest hrest
            cases h
            obtain ⟨out', hstep', hcl, hint, hst', hst⟩ :=
              mortStep_rel input pa pa' B m bal bal' out hmode (hr m)
                (hpa m) (hpa' m) hbal hbal' hle hstep
            rw [hst] at hrest
            obtain ⟨rest', hrest', hlen, hsum⟩ :=
              ih (m + 1) out.closing out'.closing rest hcl hrest
            refine ⟨out'.row :: rest', ?_, ?_, ?_⟩
            · simp only [mortgageLoop]
              rw [if_pos hbal', hstep']
              dsimp only
              rw [hst', hrest']
            · simp only [List.length_cons]
              omega
            · simp only [List.map_cons, List.sum_cons]
              exact add_le_add hint hsum
      · refine ⟨[], ?_, ?_, ?_⟩
        · simp only [mortgageLoop]
          rw [if_neg hbal']
        · simp
        · simp only [List.map_nil, List.sum_nil]
          exact interest_sum_nonneg rows
            (mortgageLoop_interest_nonneg input pa hr _ _ _ _ rows h₀)
    · cases h
      refine ⟨[], ?_, le_rfl, le_rfl⟩
      simp only [mortgageLoop]
      rename_i hbal
      rw [if_neg (fun hc => hbal (lt_of_lt_of_le hc hle))]

theorem rateD_nonneg (bands : List InterestBand)
    (h : ∀ b ∈ bands, 0 ≤ b.annualRate) (m : ℕ) : 0 ≤ rateD bands m := by
  unfold rateD getMonthlyRateForMonth
  cases hf : bands.find? (fun x =>
      decide (m ≥ x.fromMonth) && (x.toMonth.isNone || decide (m ≤ x.toMonth.getD 0))) with
  | some b =>
    simp only [Option.getD_some]
    exact div_nonneg (h b (List.mem_of_find?_eq_some hf)) (by norm_num)
  | none =>
    simp only
    cases hl : bands.getLast? with
    | none => simp
    | some b =>
      simp only [Option.map_some', Option.getD_some]
      have hb : b ∈ bands := List.mem_of_mem_getLast? (hl ▸ rfl)
      exact div_nonneg (h b hb) (by norm_num)

/-! ## Claim theorems -/

/-- C1 (counterexample): the revolving engine does not clamp; with a payment
floor of 200 against a charged balance of 150, the produced row has a negative
ending balance, and (because of the new charges) the ending balance is not
`roundToCents(openingBalance - principalPaid - 0)` either — refuting the
claim that *every* produced row of *either* engine satisfies the closing
balance identity and is non-negative. -/
theorem C1_counterexample :
    Calc.computeSchedule c1in = .ok [c1row] ∧
    c1row.endingBalance < 0 ∧
    c1row.endingBalance ≠
      Calc.roundToCents (c1row.startingBalance - c1row.principalPaid - 0) := by
  refine ⟨?_, by norm_num [c1row], by norm_num [c1row, Calc.roundToCents]⟩
  have hrest : Calc.scheduleLoop c1in 599 1 (-(85/2)) = .ok [] := by
    rw [scheduleLoop_unfold _ _ _ _ (by norm_num)]
    norm_num [Calc.EPSILON]
  simp only [c1in] at hrest
  unfold Calc.computeSchedule
  rw [scheduleLoop_unfold _ _ _ _ (by norm_num [Calc.MAX_CYCLES])]
  norm_num [Calc.MAX_CYCLES, Calc.computeCycleInterest, Calc.computeMinimumPayment,
    Calc.roundToCents, Calc.EPSILON, c1in, c1row, hrest]

/-- C1 (amended): for every mortgage input on which `computeMortgage`
succeeds, every produced row satisfies
`closingBalance = round2(openingBalance - principal - prepayment, mode)` and
`closingBalance ≥ 0` — excess principal and prepayment are clamped to the
remaining balance.  (The revolving engine gives no such guarantee, see the
counterexample.) -/
theorem C1_amended :
    ∀ (raw : MortgageInput) (res : MortgageResult),
      computeMortgage raw = .ok res → ∀ row ∈ res.rows,
        row.closingBalance =
          round2 (row.openingBalance - row.principal - row.prepayment)
            (resolveMortgageInput raw).roundingMode ∧
        0 ≤ row.closingBalance := by
  intro raw res hok row hrow
  unfold computeMortgage at hok
  dsimp only at hok
  split at hok
  · cases hok
  · rename_i rows hloop
    cases hok
    exact mortgageLoop_rows_spec (resolveMortgageInput raw) _ _ _ _ _ rows hloop row hrow

/-- Witness for C1: the amended theorem applied to a concrete one-month
mortgage whose single row it describes. -/
theorem C1_amended_witness :
    computeMortgage w1in = .ok w1res ∧
    (w1row.closingBalance =
      round2 (w1row.openingBalance - w1row.principal - w1row.prepayment)
        (resolveMortgageInput w1in).roundingMode ∧
      0 ≤ w1row.closingBalance) := by
  have hok : computeMortgage w1in = .ok w1res := by
    norm_num [computeMortgage, resolveMortgageInput, prepayByMonth,
      initialBaseState, buildFixedBasePayment, annuity, rateD,
      getMonthlyRateForMonth, List.find?, mortgageLoop_unfold, mortgageLoop_zero,
      mortStep, mortBase, basePaymentValue, monthlyAdminCommission, round2, mkTotals,
      downPayment, openingCommission, initialDisbursementRequired,
      zeroCosts, zeroInsurance, w1in, w1res, w1row]
  exact ⟨hok, C1_amended w1in w1res hok w1row (by simp [w1res])⟩

/-- C2: whenever the mortgage loop is entered at month `m` (balance above the
0.005 threshold, `m ≤ termMonths` expressed by the remaining fuel) with a
resolved base payment smaller than that month's interest, the whole call
returns the `InsufficientPayment` error naming `m` — an `Except.error` carries
no rows, so no partial schedule is produced.  In particular the growing
product `c2in`, whose `initialPagoPorMil = 1` is far below break-even, fails
at month 1. -/
theorem C2_insufficient_payment :
    (∀ (input : ResolvedMortgageInput) (pa : ℕ → ℚ) (st : BasePaymentState)
        (fuel m : ℕ) (bal : ℚ), bal > 1/200 →
        (mortBase input st m bal).1 < bal * rateD input.interest.bands m →
        mortgageLoop input pa (fuel + 1) st m bal =
          .error (.insufficientPayment m)) ∧
    computeMortgage c2in = .error (.insufficientPayment 1) := by
  refine ⟨fun input pa st fuel m bal hbal h =>
    mortgageLoop_insufficient input pa fuel st m bal hbal h, ?_⟩
  have hloop : mortgageLoop (resolveMortgageInput c2in)
      (prepayByMonth (resolveMortgageInput c2in).prepayments)
      ((resolveMortgageInput c2in).termMonths)
      (initialBaseState (resolveMortgageInput c2in)) 1
      ((resolveMortgageInput c2in).principal) =
      .error (.insufficientPayment 1) := by
    rw [show (resolveMortgageInput c2in).termMonths = 239 + 1 from by
      norm_num [resolveMortgageInput, c2in]]
    apply mortgageLoop_insufficient
    · norm_num [resolveMortgageInput, c2in]
    · norm_num [resolveMortgageInput, c2in, initialBaseState, mortBase,
        basePaymentValue, monthsOfGrowth, initialBase, baseForMonthBeforeFix,
        buildFixedBasePayment, annuity, rateD, getMonthlyRateForMonth,
        List.find?, zeroCosts, zeroInsurance]
  unfold computeMortgage
  dsimp only
  rw [hloop]

/-- C3 (the code, not the claim, is wrong): on the two-row run `c3in` the
engine returns `totals.adminCommissionTotal = 0.04` — the sum of the
per-month rounded commissions `2 × round2(1000 × 0.0000155)` — while the
formula the claim states (and which the source computes into a never-used
local constant under the comment "admin commission only for months actually
paid") gives `round2(0.0000155 × 1000 × 2) = 0.03`. -/
theorem C3_admin_total_divergence :
    (computeMortgage c3in).map
        (fun r => (r.rows.length, r.totals.adminCommissionTotal)) =
      .ok (2, 1/25) ∧
    adminCommissionTotalByFormula (resolveMortgageInput c3in) 2 = 3/100 ∧
    (1/25 : ℚ) ≠ 3/100 := by
  refine ⟨?_, ?_, by norm_num⟩
  · norm_num [computeMortgage, resolveMortgageInput, prepayByMonth,
      initialBaseState, buildFixedBasePayment, annuity, rateD,
      getMonthlyRateForMonth, List.find?, mortgageLoop_unfold, mortgageLoop_zero,
      mortStep, mortBase, basePaymentValue, monthlyAdminCommission, round2,
      mkTotals, downPayment, openingCommission, initialDisbursementRequired,
      zeroInsurance, c3in, Except.map]
  · norm_num [adminCommissionTotalByFormula, resolveMortgageInput, c3in, round2]

/-- C4 (counterexample): an unrecognized `minPaymentFormula` does not make the
engine fail — `c4in` (formula `"percentPlusInterestAndFeess"`, a typo) runs to
completion with a schedule; and even an unrecognized `interestMethod` goes
undetected when the principal is at most the loop epsilon (`c4meth`). -/
theorem C4_counterexample :
    Calc.computeSchedule c4in = .ok [c4row] ∧
    c4in.minPaymentFormula ≠ "percentOnly" ∧
    c4in.minPaymentFormula ≠ "percentPlusInterestAndFees" ∧
    Calc.computeSchedule c4meth = .ok [] ∧
    c4meth.interestMethod ≠ "averageDailyBalance" ∧
    c4meth.interestMethod ≠ "simpleMonthlyAPR" ∧
    c4meth.interestMethod ≠ "dailyCompounding" := by
  refine ⟨?_, by decide, by decide, ?_, by decide, by decide, by decide⟩
  · have hrest : Calc.scheduleLoop c4in 599 1 (1/100) = .ok [] := by
      rw [scheduleLoop_unfold _ _ _ _ (by norm_num)]
      norm_num [Calc.EPSILON]
    simp only [c4in] at hrest
    unfold Calc.computeSchedule
    rw [scheduleLoop_unfold _ _ _ _ (by norm_num [Calc.MAX_CYCLES])]
    norm_num [Calc.MAX_CYCLES, Calc.computeCycleInterest,
      Calc.computeMinimumPayment, Calc.roundToCents, Calc.EPSILON, c4in, c4row,
      hrest]
  · unfold Calc.computeSchedule
    rw [scheduleLoop_unfold _ _ _ _ (by norm_num [Calc.MAX_CYCLES])]
    norm_num [Calc.EPSILON, c4meth]

/-- C4 (amended): if the loop runs at least one cycle (`principal > 0.01`),
an unrecognized `interestMethod` identifier fails the whole call with the
unknown-interest-method (InvalidConfiguration) error; an unrecognized
`minPaymentFormula` identifier is never rejected — in both variants any
formula other than `"percentOnly"` is computed exactly like
`percentPlusInterestAndFees`. -/
theorem C4_amended :
    (∀ input : Calc.CalculationInput, input.principal > Calc.EPSILON →
      input.interestMethod ≠ "averageDailyBalance" →
      input.interestMethod ≠ "simpleMonthlyAPR" →
      input.interestMethod ≠ "dailyCompounding" →
      Calc.computeSchedule input =
        .error (.unknownInterestMethod input.interestMethod)) ∧
    (∀ (input : Calc.CalculationInput) (sb i f : ℚ),
      input.minPaymentFormula ≠ "percentOnly" →
      Calc.computeMinimumPayment input sb i f =
        max 0 (Calc.roundToCents
          (max input.minPaymentFloor (input.minPaymentPercent * sb) + i + f))) ∧
    (∀ (input : CalcT.CalculationInput) (sb i f : ℚ),
      input.minPaymentFormula ≠ "percentOnly" →
      CalcT.computeMinimumPayment input sb i f =
        max 0 (Calc.roundToCents (input.minPaymentPercent * sb + i + f))) := by
  refine ⟨fun input hp h1 h2 h3 => ?_, fun input sb i f h => ?_, fun input sb i f h => ?_⟩
  · unfold Calc.computeSchedule
    rw [scheduleLoop_unfold _ _ _ _ (by norm_num [Calc.MAX_CYCLES])]
    rw [if_pos hp]
    unfold Calc.computeCycleInterest
    simp only [if_neg h1, if_neg h2, if_neg h3]
  · unfold Calc.computeMinimumPayment
    rw [if_neg h]
  · unfold CalcT.computeMinimumPayment
    rw [if_neg h]

theorem reduceTerm_ne_installment :
    (PrepaymentMode.reduce_term = PrepaymentMode.reduce_installment) = False :=
  eq_false fun h => PrepaymentMode.noConfusion h

/-- Witness for C2: the loop-level guard applied to a concrete resolved input
with a zero base payment against a 12% rate. -/
theorem C2_insufficient_payment_witness :
    (100 : ℚ) > 1/200 ∧
    (mortBase w2inp (.fixedB 0) 1 100).1 < 100 * rateD w2inp.interest.bands 1 ∧
    mortgageLoop w2inp (fun _ => 0) (5 + 1) (.fixedB 0) 1 100 =
      .error (.insufficientPayment 1) := by
  have hlt : (mortBase w2inp (.fixedB 0) 1 100).1 <
      100 * rateD w2inp.interest.bands 1 := by
    norm_num [mortBase, basePaymentValue, w2inp, rateD, getMonthlyRateForMonth,
      List.find?, zeroCosts, zeroInsurance]
  exact ⟨by norm_num, hlt,
    C2_insufficient_payment.1 w2inp (fun _ => 0) (.fixedB 0) 5 1 100 (by norm_num) hlt⟩

/-- Witness for C4: the amended behaviour at concrete inputs — an unknown
method fails once the loop runs; unknown formulas take the
percent-plus-interest-and-fees branch in both variants. -/
theorem C4_amended_witness :
    w4m.principal > Calc.EPSILON ∧
    Calc.computeSchedule w4m = .error (.unknownInterestMethod w4m.interestMethod) ∧
    Calc.computeMinimumPayment c4in 100 7 3 =
      max 0 (Calc.roundToCents
        (max c4in.minPaymentFloor (c4in.minPaymentPercent * 100) + 7 + 3)) ∧
    CalcT.computeMinimumPayment w4t 100 7 3 =
      max 0 (Calc.roundToCents (w4t.minPaymentPercent * 100 + 7 + 3)) := by
  refine ⟨by norm_num [w4m, Calc.EPSILON], ?_, ?_, ?_⟩
  · exact C4_amended.1 w4m (by norm_num [w4m, Calc.EPSILON])
      (by decide) (by decide) (by decide)
  · exact C4_amended.2.1 c4in 100 7 3 (by decide)
  · exact C4_amended.2.2 w4t 100 7 3 (by decide)

/-- C5: both engines terminate with bounded schedules.  The revolving loop
produces at most 600 rows, and a shorter run ends only because the balance
fell to at most `EPSILON = 0.01` or the runaway guard fired (last row's
ending balance exceeds its starting balance, after more than 12 rows).  The
mortgage loop never produces more than `termMonths` rows, and a shorter run
ends with the final closing balance at most `0.005`. -/
theorem C5_termination :
    (∀ (input : Calc.CalculationInput) (sched : List Calc.PaymentScheduleItem),
      Calc.computeSchedule input = .ok sched → sched.length ≤ 600) ∧
    (∀ (input : Calc.CalculationInput) (sched : List Calc.PaymentScheduleItem),
      Calc.computeSchedule input = .ok sched → sched.length < 600 →
      (sched = [] → input.principal ≤ Calc.EPSILON) ∧
      (∀ last, sched.getLast? = some last →
        last.endingBalance ≤ Calc.EPSILON ∨
        (last.startingBalance < last.endingBalance ∧ 12 < sched.length))) ∧
    (∀ (raw : MortgageInput) (res : MortgageResult),
      computeMortgage raw = .ok res → res.rows.length ≤ raw.termMonths) ∧
    (∀ (raw : MortgageInput) (res : MortgageResult),
      computeMortgage raw = .ok res → res.rows.length < raw.termMonths →
      (res.rows = [] → (resolveMortgageInput raw).principal ≤ 1/200) ∧
      (∀ last, res.rows.getLast? = some last → last.closingBalance ≤ 1/200)) := by
  refine ⟨?_, ?_, ?_, ?_⟩
  · intro input sched h
    exact scheduleLoop_length_le input 600 0 input.principal sched h
  · intro input sched h hlen
    have := scheduleLoop_exit input 600 0 input.principal sched h hlen (Or.inr rfl)
    refine ⟨this.1, fun last hlast => ?_⟩
    rcases this.2 last hlast with h1 | ⟨h2, h3⟩
    · exact Or.inl h1
    · exact Or.inr ⟨h2, by omega⟩
  · intro raw res hok
    unfold computeMortgage at hok
    dsimp only at hok
    split at hok
    · cases hok
    · rename_i rows hloop
      cases hok
      exact mortgageLoop_length_le _ _ _ _ _ _ rows hloop
  · intro raw res hok hlen
    unfold computeMortgage at hok
    dsimp only at hok
    split at hok
    · cases hok
    · rename_i rows hloop
      cases hok
      exact mortgageLoop_exit _ _ _ _ _ _ rows hloop hlen

/-- Witness for C5: a one-cycle revolving run and an early-payoff two-row
mortgage run, with the termination bounds instantiated. -/
theorem C5_termination_witness :
    Calc.computeSchedule w5c = .ok [w5row] ∧
    [w5row].length ≤ 600 ∧
    (w5row.endingBalance ≤ Calc.EPSILON ∨
      (w5row.startingBalance < w5row.endingBalance ∧ 12 < [w5row].length)) ∧
    computeMortgage w5m = .ok w5mres ∧
    w5mres.rows.length ≤ w5m.termMonths ∧
    w5mlast.closingBalance ≤ 1/200 := by
  have hok : Calc.computeSchedule w5c = .ok [w5row] := by
    have hrest : Calc.scheduleLoop w5c 599 1 (1/100) = .ok [] := by
      rw [scheduleLoop_unfold _ _ _ _ (by norm_num)]
      norm_num [Calc.EPSILON]
    simp only [w5c] at hrest
    unfold Calc.computeSchedule
    rw [scheduleLoop_unfold _ _ _ _ (by norm_num [Calc.MAX_CYCLES])]
    norm_num [Calc.MAX_CYCLES, Calc.computeCycleInterest,
      Calc.computeMinimumPayment, Calc.roundToCents, Calc.EPSILON, w5c, w5row,
      hrest]
  have hokm : computeMortgage w5m = .ok w5mres := by
    norm_num [computeMortgage, resolveMortgageInput, prepayByMonth,
      Function.update, initialBaseState, buildFixedBasePayment, annuity, rateD,
      getMonthlyRateForMonth, List.find?, mortgageLoop_unfold, mortgageLoop_zero,
      mortStep, mortBase, basePaymentValue, monthlyAdminCommission, round2,
      mkTotals, downPayment, openingCommission, initialDisbursementRequired,
      zeroCosts, zeroInsurance, w5m, w5mres, w5mlast, reduceTerm_ne_installment]
  refine ⟨hok, C5_termination.1 w5c [w5row] hok, ?_, hokm, ?_, ?_⟩
  · have := C5_termination.2.1 w5c [w5row] hok (by norm_num)
    exact this.2 w5row (by simp)
  · exact C5_termination.2.2.1 w5m w5mres hokm
  · have := C5_termination.2.2.2 w5m w5mres hokm (by norm_num [w5mres, w5m])
    exact this.2 w5mlast (by simp [w5mres])

/-- C6: the fixed-product base payment.  (i) `annuity` with a zero periodic
rate degrades to `presentValue / periods`; (ii) for every successful
non-growing run (positive principal, at least one month, non-negative month-1
rate) the first row's base payment is the standard annuity over the full term
at the month-1 rate, rounded to cents; (iii) Scenario D — principal
4,770,000, monthly rate 0.101/12, term 240 — completes and its first base
payment equals that annuity rounded to cents. -/
theorem C6_first_payment_annuity :
    (∀ (pv : ℚ) (n : ℕ), annuity pv 0 n = pv / n) ∧
    (∀ (raw : MortgageInput) (res : MortgageResult),
      computeMortgage raw = .ok res →
      raw.product ≠ .hipoteca_creciente →
      1/200 < (resolveMortgageInput raw).principal →
      1 ≤ raw.termMonths →
      0 ≤ rateD raw.interest.bands 1 →
      res.rows.head?.map (fun row => row.basePayment) =
        some (round2 (annuity (resolveMortgageInput raw).principal
          (rateD raw.interest.bands 1) raw.termMonths)
          (resolveMortgageInput raw).roundingMode)) ∧
    (∃ res, computeMortgage c6in = .ok res ∧
      res.rows.head?.map (fun row => row.basePayment) =
        some (round2 (annuity 4770000 (101/12000) 240) .round)) := by
  refine ⟨annuity_zero_rate, ?_, ?_⟩
  · intro raw res hok hprod hbal hn hr
    exact computeMortgage_fixed_head raw res hok hprod hbal hn hr
  · set inp := resolveMortgageInput c6in with hinp
    have hrate : ∀ k, 1 ≤ k → rateD inp.interest.bands k = 101/12000 := by
      intro k hk
      unfold rateD
      rw [show inp.interest.bands =
          [] ++ ({ fromMonth := 1, toMonth := none, annualRate := 101/1000 }
            : InterestBand) :: [] from rfl]
      rw [getMonthlyRateForMonth_first_match k [] _ []
        (by intro b hb; cases hb) ⟨hk, fun t ht => by cases ht⟩]
      norm_num
    have hpa : ∀ k, prepayByMonth inp.prepayments k = 0 := fun k => rfl
    have hB : (4770000 : ℚ) * (101/12000) ≤ buildFixedBasePayment inp := by
      unfold buildFixedBasePayment
      rw [show inp.principal = 4770000 from rfl,
        show inp.termMonths = 240 from rfl, hrate 1 le_rfl]
      exact annuity_ge_interest (by norm_num) (by norm_num) (by norm_num)
    have hP : inp.principal = 4770000 := rfl
    obtain ⟨rows, hloop⟩ := mortgageLoop_fixed_ok inp
      (prepayByMonth inp.prepayments) (buildFixedBasePayment inp) 4770000
      (101/12000) hpa (by norm_num) hrate hB inp.termMonths 1 inp.principal
      le_rfl (by rw [hP]; norm_num) ⟨477000000, by rw [hP]; norm_num⟩
      (le_of_eq hP)
    have hok : computeMortgage c6in =
        .ok { input := inp, rows := rows, totals := mkTotals inp rows } := by
      unfold computeMortgage
      dsimp only
      rw [← hinp, initialBaseState_fixed inp (by decide)]
      rw [hloop]
    refine ⟨_, hok, ?_⟩
    have := computeMortgage_fixed_head c6in _ hok (by decide)
      (by norm_num [hinp.symm, resolveMortgageInput, c6in]) (by norm_num [c6in])
      (by rw [show rateD c6in.interest.bands 1 = rateD inp.interest.bands 1 from rfl,
            hrate 1 le_rfl]; norm_num)
    rw [this]
    rw [show rateD c6in.interest.bands 1 = rateD inp.interest.bands 1 from rfl,
      hrate 1 le_rfl]
    rfl

/-- Witness for C6: the general first-row statement applied to a one-month
fixed mortgage. -/
theorem C6_first_payment_annuity_witness :
    computeMortgage w1in = .ok w1res ∧
    w1in.product ≠ .hipoteca_creciente ∧
    (1/200 : ℚ) < (resolveMortgageInput w1in).principal ∧
    1 ≤ w1in.termMonths ∧
    0 ≤ rateD w1in.interest.bands 1 ∧
    w1res.rows.head?.map (fun row => row.basePayment) =
      some (round2 (annuity (resolveMortgageInput w1in).principal
        (rateD w1in.interest.bands 1) w1in.termMonths)
        (resolveMortgageInput w1in).roundingMode) := by
  have hok : computeMortgage w1in = .ok w1res := by
    norm_num [computeMortgage, resolveMortgageInput, prepayByMonth,
      initialBaseState, buildFixedBasePayment, annuity, rateD,
      getMonthlyRateForMonth, List.find?, mortgageLoop_unfold, mortgageLoop_zero,
      mortStep, mortBase, basePaymentValue, monthlyAdminCommission, round2,
      mkTotals, downPayment, openingCommission, initialDisbursementRequired,
      zeroCosts, zeroInsurance, w1in, w1res, w1row]
  have hr : (0:ℚ) ≤ rateD w1in.interest.bands 1 := by
    norm_num [rateD, getMonthlyRateForMonth, List.find?, w1in]
  refine ⟨hok, by decide, by norm_num [resolveMortgageInput, w1in], by norm_num [w1in], hr, ?_⟩
  exact C6_first_payment_annuity.2.1 w1in w1res hok (by decide)
    (by norm_num [resolveMortgageInput, w1in]) (by norm_num [w1in]) hr

/-- C7: the minimum-payment function.  With formula `percentOnly` the
target-months variant returns `max(0, roundToCents(pct × statementBalance))`,
independently of the interest and fees arguments; Scenario B
(balance 10000, pct 5%) gives exactly 500.  In both variants the returned
payment is always `≥ 0` and a whole number of cents. -/
theorem C7_minimum_payment :
    (∀ (input : CalcT.CalculationInput) (sb i f : ℚ),
      input.minPaymentFormula = "percentOnly" →
      CalcT.computeMinimumPayment input sb i f =
        max 0 (Calc.roundToCents (input.minPaymentPercent * sb))) ∧
    (∀ i f : ℚ, CalcT.computeMinimumPayment w7t 10000 i f = 500) ∧
    (∀ (input : CalcT.CalculationInput) (sb i f : ℚ),
      0 ≤ CalcT.computeMinimumPayment input sb i f ∧
      ∃ k : ℤ, CalcT.computeMinimumPayment input sb i f = k / 100) ∧
    (∀ (input : Calc.CalculationInput) (sb i f : ℚ),
      0 ≤ Calc.computeMinimumPayment input sb i f ∧
      ∃ k : ℤ, Calc.computeMinimumPayment input sb i f = k / 100) := by
  have hmax : ∀ x : ℚ, 0 ≤ max 0 (Calc.roundToCents x) ∧
      ∃ k : ℤ, max 0 (Calc.roundToCents x) = k / 100 := by
    intro x
    refine ⟨le_max_left 0 _, ?_⟩
    rcases le_total (Calc.roundToCents x) 0 with hle | hle
    · exact ⟨0, by rw [max_eq_left hle]; norm_num⟩
    · exact ⟨⌊x * 100 + 1/2⌋, by rw [max_eq_right hle]; rfl⟩
  refine ⟨?_, ?_, ?_, ?_⟩
  · intro input sb i f h
    unfold CalcT.computeMinimumPayment
    rw [if_pos h]
  · intro i f
    unfold CalcT.computeMinimumPayment
    rw [if_pos (show w7t.minPaymentFormula = "percentOnly" from rfl)]
    norm_num [w7t, Calc.roundToCents]
  · intro input sb i f
    unfold CalcT.computeMinimumPayment
    dsimp only
    split
    · exact hmax _
    · exact hmax _
  · intro input sb i f
    unfold Calc.computeMinimumPayment
    dsimp only
    split
    · exact hmax _
    · exact hmax _

/-- Witness for C7: Scenario B and the clamp facts at concrete inputs. -/
theorem C7_minimum_payment_witness :
    w7t.minPaymentFormula = "percentOnly" ∧
    CalcT.computeMinimumPayment w7t 10000 500 37 =
      max 0 (Calc.roundToCents (w7t.minPaymentPercent * 10000)) ∧
    CalcT.computeMinimumPayment w7t 10000 500 37 = 500 ∧
    (0 ≤ Calc.computeMinimumPayment w7c 10000 500 37 ∧
      ∃ k : ℤ, Calc.computeMinimumPayment w7c 10000 500 37 = k / 100) :=
  ⟨rfl, C7_minimum_payment.1 w7t 10000 500 37 rfl,
    C7_minimum_payment.2.1 500 37,
    C7_minimum_payment.2.2.2 w7c 10000 500 37⟩

theorem computeMortgage_with_prepay (raw : MortgageInput) (l : List Prepayment) :
    computeMortgage { raw with prepayments := l } =
      (match mortgageLoop (resolveMortgageInput raw) (prepayByMonth l)
          (resolveMortgageInput raw).termMonths
          (initialBaseState (resolveMortgageInput raw)) 1
          (resolveMortgageInput raw).principal with
      | .error e => .error e
      | .ok rows =>
        .ok { input := { resolveMortgageInput raw with prepayments := l }
              rows := rows
              totals := mkTotals (resolveMortgageInput raw) rows }) := by
  unfold computeMortgage
  dsimp only
  rw [show resolveMortgageInput { raw with prepayments := l } =
    { resolveMortgageInput raw with prepayments := l } from rfl]
  rw [show ({ resolveMortgageInput raw with prepayments := l }
      : ResolvedMortgageInput).prepayments = l from rfl]
  rw [show initialBaseState { resolveMortgageInput raw with prepayments := l } =
    initialBaseState (resolveMortgageInput raw) from rfl]
  rw [mortgageLoop_prepay_congr (resolveMortgageInput raw) l (prepayByMonth l)]
  rw [show ({ resolveMortgageInput raw with prepayments := l }
      : ResolvedMortgageInput).termMonths = (resolveMortgageInput raw).termMonths from rfl]
  rw [show ({ resolveMortgageInput raw with prepayments := l }
      : ResolvedMortgageInput).principal = (resolveMortgageInput raw).principal from rfl]
  cases mortgageLoop (resolveMortgageInput raw) (prepayByMonth l)
      (resolveMortgageInput raw).termMonths
      (initialBaseState (resolveMortgageInput raw)) 1
      (resolveMortgageInput raw).principal with
  | error e => rfl
  | ok rows =>
    dsimp only
    rw [mkTotals_prepay_congr]

/-- C8 (amended): with `prepaymentMode = reduce_term`, a product other than
`hipoteca_creciente` (whose base payment never depends on the simulated
balance), non-negative band rates and an empty prepayment list, adding one
positive prepayment never increases the number of rows produced and never
increases `totals.interestTotal`. -/
theorem C8_amended :
    ∀ (raw : MortgageInput) (m₀ : ℕ) (a : ℚ) (res : MortgageResult),
      raw.product ≠ .hipoteca_creciente →
      raw.prepaymentMode = .reduce_term →
      raw.prepayments = [] →
      (∀ b ∈ raw.interest.bands, 0 ≤ b.annualRate) →
      0 < a →
      computeMortgage raw = .ok res →
      ∃ res', computeMortgage { raw with prepayments := [⟨m₀, a⟩] } = .ok res' ∧
        res'.rows.length ≤ res.rows.length ∧
        res'.totals.interestTotal ≤ res.totals.interestTotal := by
  intro raw m₀ a res hprod hmode hnil hrates ha hok
  set inp := resolveMortgageInput raw with hinp
  have hmode' : inp.prepaymentMode = .reduce_term := hmode
  have hpl : inp.prepayments = [] := hnil
  have hr : ∀ k, 0 ≤ rateD inp.interest.bands k := fun k =>
    rateD_nonneg _ hrates k
  have hpa : ∀ k, prepayByMonth inp.prepayments k = 0 := fun k => by
    rw [hpl]
    rfl
  have hpa' : ∀ k, 0 ≤ prepayByMonth [⟨m₀, a⟩] k := fun k => by
    rw [prepayByMonth_eq_prepaySum, prepaySum_cons]
    simp only [prepaySum, List.map_nil, List.sum_nil, add_zero]
    split
    · exact le_of_lt ha
    · exact le_rfl
  unfold computeMortgage at hok
  dsimp only at hok
  rw [← hinp, initialBaseState_fixed inp hprod] at hok
  split at hok
  · cases hok
  · rename_i rows hloop
    cases hok
    obtain ⟨rows', hloop', hlen, hsum⟩ :=
      mortgageLoop_rel inp (prepayByMonth inp.prepayments) (prepayByMonth [⟨m₀, a⟩])
        (buildFixedBasePayment inp) hmode' hr hpa hpa'
        inp.termMonths 1 inp.principal inp.principal rows le_rfl hloop
    refine ⟨⟨{ inp with prepayments := [⟨m₀, a⟩] }, rows', mkTotals inp rows'⟩,
      ?_, ?_, ?_⟩
    · rw [computeMortgage_with_prepay raw [⟨m₀, a⟩], ← hinp,
        initialBaseState_fixed inp hprod, hloop']
    · exact hlen
    · show (mkTotals inp rows').interestTotal ≤ (mkTotals inp rows).interestTotal
      unfold mkTotals
      dsimp only
      rw [foldl_add_eq_sum, foldl_add_eq_sum]
      exact round2_mono _ (by simpa using hsum)

/-- C8 (counterexample): for the growing product the reduce-term monotonicity
fails.  `c8in` (zero rate, 16-month term, growth over year 1) produces 14
rows; adding the single positive prepayment of one cent at month 1 (`c8inP`)
makes the recomputed post-growth payment round down a cent, and the run
produces 16 rows. -/
theorem C8_counterexample :
    c8in.prepaymentMode = .reduce_term ∧
    c8inP = { c8in with prepayments := [⟨1, 1/100⟩] } ∧
    (0 : ℚ) < 1/100 ∧
    (computeMortgage c8in).map (fun r => r.rows.length) = .ok 14 ∧
    (computeMortgage c8inP).map (fun r => r.rows.length) = .ok 16 := by
  refine ⟨rfl, rfl, by norm_num, ?_, ?_⟩
  · norm_num [computeMortgage, resolveMortgageInput, prepayByMonth,
      Function.update, initialBaseState, buildFixedBasePayment, annuity, rateD,
      getMonthlyRateForMonth, List.find?, mortgageLoop_unfold, mortgageLoop_zero,
      mortStep, mortBase, basePaymentValue, monthsOfGrowth, initialBase,
      baseForMonthBeforeFix, monthlyAdminCommission, round2, mkTotals,
      downPayment, openingCommission, initialDisbursementRequired,
      zeroCosts, zeroInsurance, c8in, reduceTerm_ne_installment, Except.map]
  · norm_num [computeMortgage, resolveMortgageInput, prepayByMonth,
      Function.update, initialBaseState, buildFixedBasePayment, annuity, rateD,
      getMonthlyRateForMonth, List.find?, mortgageLoop_unfold, mortgageLoop_zero,
      mortStep, mortBase, basePaymentValue, monthsOfGrowth, initialBase,
      baseForMonthBeforeFix, monthlyAdminCommission, round2, mkTotals,
      downPayment, openingCommission, initialDisbursementRequired,
      zeroCosts, zeroInsurance, c8in, c8inP, reduceTerm_ne_installment, Except.map]

/-- Witness for C8: the amended monotonicity applied to a two-month fixed
mortgage and a 50-unit month-1 prepayment. -/
theorem C8_amended_witness :
    w8in.product ≠ .hipoteca_creciente ∧
    w8in.prepaymentMode = .reduce_term ∧
    w8in.prepayments = [] ∧
    (∀ b ∈ w8in.interest.bands, 0 ≤ b.annualRate) ∧
    (0 : ℚ) < 50 ∧
    computeMortgage w8in = .ok w8res ∧
    (∃ res', computeMortgage { w8in with prepayments := [⟨1, 50⟩] } = .ok res' ∧
      res'.rows.length ≤ w8res.rows.length ∧
      res'.totals.interestTotal ≤ w8res.totals.interestTotal) := by
  have hok : computeMortgage w8in = .ok w8res := by
    norm_num [computeMortgage, resolveMortgageInput, prepayByMonth,
      initialBaseState, buildFixedBasePayment, annuity, rateD,
      getMonthlyRateForMonth, List.find?, mortgageLoop_unfold, mortgageLoop_zero,
      mortStep, mortBase, basePaymentValue, monthlyAdminCommission, round2,
      mkTotals, downPayment, openingCommission, initialDisbursementRequired,
      zeroCosts, zeroInsurance, w8in, w8res]
  refine ⟨by decide, rfl, rfl, by norm_num [w8in], by norm_num, hok, ?_⟩
  exact C8_amended w8in 1 50 w8res (by decide) rfl rfl (by norm_num [w8in])
    (by norm_num) hok

/-- C9: the rate lookup is total only for non-empty band lists.  For a
non-empty list it returns `annualRate/12` of the first band whose
`[fromMonth, toMonth]` range contains the month (an absent `toMonth` is
open-ended), else `annualRate/12` of the last band; and it always returns a
value.  For the empty list the source reads a nonexistent last element
(modelled as `none`), so `computeMortgage` needs at least one band. -/
theorem C9_rate_lookup :
    (∀ (m : ℕ) (pre : List InterestBand) (b : InterestBand)
        (post : List InterestBand),
      (∀ b' ∈ pre, ¬ bandContains b' m) → bandContains b m →
      getMonthlyRateForMonth (pre ++ b :: post) m = some (b.annualRate / 12)) ∧
    (∀ (m : ℕ) (bands : List InterestBand) (h : bands ≠ []),
      (∀ b ∈ bands, ¬ bandContains b m) →
      getMonthlyRateForMonth bands m = some ((bands.getLast h).annualRate / 12)) ∧
    (∀ (m : ℕ) (bands : List InterestBand), bands ≠ [] →
      (getMonthlyRateForMonth bands m).isSome = true) ∧
    (∀ m : ℕ, getMonthlyRateForMonth [] m = none) :=
  ⟨getMonthlyRateForMonth_first_match, getMonthlyRateForMonth_fallback,
    fun m bands h => getMonthlyRateForMonth_total m bands h,
    getMonthlyRateForMonth_empty⟩

/-- Witness for C9: a two-band list — month 14 falls past the first band's
`toMonth = 12` and into the open-ended second band; month 0 matches no band
and falls back to the last; the empty list gives `none`. -/
theorem C9_rate_lookup_witness :
    getMonthlyRateForMonth
        ([⟨1, some 12, 5/100⟩] ++ (⟨13, none, 7/100⟩ : InterestBand) :: []) 14 =
      some ((7/100) / 12) ∧
    getMonthlyRateForMonth [⟨1, some 12, 5/100⟩, ⟨13, none, 7/100⟩] 0 =
      some ((7/100) / 12) ∧
    (getMonthlyRateForMonth [⟨1, some 12, 5/100⟩, ⟨13, none, 7/100⟩] 14).isSome
      = true ∧
    getMonthlyRateForMonth [] 14 = none := by
  have hnc1 : ¬ bandContains ⟨1, some 12, 5/100⟩ 14 := by
    intro hc
    have h12 : (14 : ℕ) ≤ 12 := hc.2 12 rfl
    omega
  have hnc2 : ¬ bandContains ⟨1, some 12, 5/100⟩ 0 := by
    intro hc
    have h1 : (1 : ℕ) ≤ 0 := hc.1
    omega
  have hnc3 : ¬ bandContains ⟨13, none, 7/100⟩ 0 := by
    intro hc
    have h1 : (13 : ℕ) ≤ 0 := hc.1
    omega
  refine ⟨?_, ?_, ?_, ?_⟩
  · exact C9_rate_lookup.1 14 [⟨1, some 12, 5/100⟩] ⟨13, none, 7/100⟩ []
      (by
        intro b hb
        rw [List.mem_singleton] at hb
        subst hb
        exact hnc1)
      ⟨(by norm_num : (13 : ℕ) ≤ 14), fun t ht => by cases ht⟩
  · exact C9_rate_lookup.2.1 0 [⟨1, some 12, 5/100⟩, ⟨13, none, 7/100⟩]
      (by simp)
      (by
        intro b hb
        rcases List.mem_cons.mp hb with h | h
        · subst h
          exact hnc2
        · rw [List.mem_singleton] at h
          subst h
          exact hnc3)
  · exact C9_rate_lookup.2.2.1 14 [⟨1, some 12, 5/100⟩, ⟨13, none, 7/100⟩]
      (by simp)
  · exact C9_rate_lookup.2.2.2 14

/-- C10: `computeMortgage` aggregates same-month prepayment entries by
summation before the loop: replacing any two entries for the same month by a
single entry carrying their summed amount leaves the produced rows and totals
unchanged (the echoed input record differs only in the raw prepayment list). -/
theorem C10_prepayment_aggregation :
    ∀ (raw : MortgageInput) (pre mid post : List Prepayment) (p1 p2 : Prepayment),
      p1.month = p2.month →
      (computeMortgage
          { raw with prepayments := pre ++ p1 :: mid ++ p2 :: post }).map
          (fun r => (r.rows, r.totals)) =
      (computeMortgage
          { raw with prepayments :=
              pre ++ (⟨p1.month, p1.amount + p2.amount⟩ : Prepayment) :: mid ++ post }).map
          (fun r => (r.rows, r.totals)) := by
  intro raw pre mid post p1 p2 hm
  have hpa : prepayByMonth (pre ++ p1 :: mid ++ p2 :: post) =
      prepayByMonth (pre ++ (⟨p1.month, p1.amount + p2.amount⟩ : Prepayment) :: mid ++ post) := by
    funext k
    rw [prepayByMonth_eq_prepaySum, prepayByMonth_eq_prepaySum]
    simp only [prepaySum_append, prepaySum_cons, ← hm]
    by_cases hc : p1.month = k
    · simp only [if_pos hc]
      ring
    · simp only [if_neg hc]
      ring
  rw [computeMortgage_with_prepay, computeMortgage_with_prepay, hpa]
  cases mortgageLoop (resolveMortgageInput raw)
      (prepayByMonth (pre ++ (⟨p1.month, p1.amount + p2.amount⟩ : Prepayment) :: mid ++ post))
      (resolveMortgageInput raw).termMonths
      (initialBaseState (resolveMortgageInput raw)) 1
      (resolveMortgageInput raw).principal with
  | error e => rfl
  | ok rows => rfl

/-- Witness for C10: merging the two month-1 prepayments 5 and 7 of a
one-month mortgage into a single 12-unit entry leaves rows and totals
unchanged. -/
theorem C10_prepayment_aggregation_witness :
    (⟨1, (5:ℚ)⟩ : Prepayment).month = (⟨1, (7:ℚ)⟩ : Prepayment).month ∧
    (computeMortgage
        { w10raw with prepayments := [] ++ (⟨1, (5:ℚ)⟩ : Prepayment) :: [] ++ (⟨1, (7:ℚ)⟩ : Prepayment) :: [] }).map
        (fun r => (r.rows, r.totals)) =
    (computeMortgage
        { w10raw with prepayments :=
            [] ++ (⟨(⟨1, (5:ℚ)⟩ : Prepayment).month,
              (⟨1, (5:ℚ)⟩ : Prepayment).amount + (⟨1, (7:ℚ)⟩ : Prepayment).amount⟩ : Prepayment) :: [] ++ [] }).map
        (fun r => (r.rows, r.totals)) :=
  ⟨rfl, C10_prepayment_aggregation w10raw [] [] [] ⟨1, 5⟩ ⟨1, 7⟩ rfl⟩
